import Mathlib

/-!
Formal model of the matchmaking and rating core of `src/app.py` (a badminton
club matchmaking web app).  The Python code is embedded shallowly:

* Python floats (timestamps, scores, weights) are modelled as `ℚ`.  The one
  transcendental computation, `_elo_expected`'s `10 ** ((rb - ra) / 400)`, is
  abstracted: rating-update functions take the expected-score function `eaOf`
  as a parameter, and concrete instantiations use its exact real value at
  integer exponents (`elo_expected_zint`).
* Python `int(round(x))` is banker's rounding (round half to even), modelled
  exactly by `pyRound` on `ℚ`.
* Player ids are opaque strings in the code, modelled as `ℕ`; the canonical
  string keys built from ids (`_pair_key`'s `"u|v"`, `_group4_sig`'s sorted
  comma-join) are modelled as the ordered pair / sorted id list.
* Status strings `"offline" | "queue" | "resting" | "playing"` and the winner
  strings `"A" | "B"` are modelled as enumerations.
* Python dicts are insertion-ordered association lists (`assocSet` mirrors
  `d[k] = v`, `alookup` mirrors `d[k]` / `d.get(k)`); `db["players"][uid]` on
  a key that is always present is modelled by `getP` (missing key defaults,
  where the code would raise).
* `random.uniform(0, NOISE_SCALE)` is an oracle parameter `noise`; the fresh
  uuid of `_match_id` is a parameter `mid`; each `time.time()` read is a
  parameter.
* Flask request plumbing, persistence (`save_db`), auth token handling and
  display helpers are out of scope; the endpoint embeddings model the state
  change of the success path and return `none` where the code returns an
  error response.
-/

/-- Player status: the code's strings `"offline" | "queue" | "resting" | "playing"`. -/
inductive Status where
  | offline
  | queue
  | resting
  | playing
deriving Repr, DecidableEq

/-- Match winner: the code's strings `"A" | "B"`. -/
inductive Team where
  | A
  | B
deriving Repr, DecidableEq

/-- Python's `round` on a real value: round half to even (banker's rounding).
The code applies `int(round(delta))` to rating deltas and `int(round(...))`
to averages. -/
def pyRound (x : ℚ) : ℤ :=
  if Int.fract x < 1/2 then ⌊x⌋
  else if Int.fract x > 1/2 then ⌊x⌋ + 1
  else if 2 ∣ ⌊x⌋ then ⌊x⌋ else ⌊x⌋ + 1

theorem pyRound_neg (x : ℚ) : pyRound (-x) = - pyRound x := by
  unfold pyRound
  rcases eq_or_ne (Int.fract x) 0 with h0 | h0
  · have hneg : Int.fract (-x) = 0 := by
      have hx : x = (⌊x⌋ : ℚ) := by
        have := Int.self_sub_fract x
        rw [h0] at this
        linarith
      rw [hx, ← Int.cast_neg, Int.fract_intCast]
    have hfl : ⌊-x⌋ = -⌊x⌋ := by
      have hx : x = (⌊x⌋ : ℚ) := by
        have := Int.self_sub_fract x
        rw [h0] at this
        linarith
      have hx2 : (-x) = ((-⌊x⌋ : ℤ) : ℚ) := by push_cast; linarith
      rw [hx2, Int.floor_intCast]
    rw [hneg, h0, hfl]
    norm_num
  · have hr0 : 0 < Int.fract x := lt_of_le_of_ne (Int.fract_nonneg x) (Ne.symm h0)
    have hr1 : Int.fract x < 1 := Int.fract_lt_one x
    have hfn : Int.fract (-x) = 1 - Int.fract x := Int.fract_neg h0
    have hfl : ⌊-x⌋ = -⌊x⌋ - 1 := by
      have h1 : ((-x) : ℚ) - Int.fract (-x) = (⌊-x⌋ : ℚ) := Int.self_sub_fract (-x)
      have h2 : x - Int.fract x = (⌊x⌋ : ℚ) := Int.self_sub_fract x
      have : (⌊-x⌋ : ℚ) = -(⌊x⌋ : ℚ) - 1 := by
        rw [← h1, hfn]
        linarith
      exact_mod_cast this
    rw [hfn, hfl]
    rcases lt_trichotomy (Int.fract x) (1/2) with h | h | h
    · have ha : ¬ (1 - Int.fract x < 1/2) := by linarith
      have hb : 1 - Int.fract x > 1/2 := by linarith
      rw [if_neg ha, if_pos hb, if_pos h]
      ring
    · have ha : ¬ (1 - Int.fract x < 1/2) := by rw [h]; norm_num
      have hb : ¬ (1 - Int.fract x > 1/2) := by rw [h]; norm_num
      have hc : ¬ (Int.fract x < 1/2) := by rw [h]; norm_num
      have hd : ¬ (Int.fract x > 1/2) := by rw [h]; norm_num
      rw [if_neg ha, if_neg hb, if_neg hc, if_neg hd]
      split_ifs <;> omega
    · have ha : 1 - Int.fract x < 1/2 := by linarith
      have hc : ¬ (Int.fract x < 1/2) := by linarith
      have hd : Int.fract x > 1/2 := h
      rw [if_pos ha, if_neg hc, if_pos hd]
      ring

theorem pyRound_nonneg {x : ℚ} (h : 0 ≤ x) : 0 ≤ pyRound x := by
  unfold pyRound
  have hf : (0:ℤ) ≤ ⌊x⌋ := Int.floor_nonneg.mpr h
  split_ifs <;> omega

theorem pyRound_nonpos {x : ℚ} (h : x ≤ 0) : pyRound x ≤ 0 := by
  have := pyRound_nonneg (x := -x) (by linarith)
  rw [pyRound_neg] at this
  omega

/-- A player record: the matchmaking-relevant fields with the defaults that
`_ensure_player` backfills.  Display-only fields (nickname, picture, bio,
racket) are omitted. -/
structure Player where
  id : ℕ
  mmr : ℤ := 1000
  status : Status := Status.offline
  queue_join_ts : ℚ := 0
  cooldown_until : ℚ := 0
  auto_rest : Bool := false
  priority_match : Bool := false
  calib_played : ℤ := 0
  calib_wins : ℤ := 0
  calib_losses : ℤ := 0
  calib_streak : ℤ := 0
  paired_with : Option ℕ := none
  sets_w : ℤ := 0
  sets_l : ℤ := 0
  points_for : ℤ := 0
  points_against : ℤ := 0
  match_w : ℤ := 0
  match_l : ℤ := 0
  best_streak : ℤ := 0
  cur_streak : ℤ := 0
deriving Repr, DecidableEq

/-- A `recent_teammates` / `recent_opponents` entry: `{"ts": float, "count": int}`. -/
structure DivEntry where
  ts : ℚ
  count : ℤ
deriving Repr, DecidableEq

/-- An `avoid_4` entry `{"sig": ..., "ts": ...}`.  The signature is the sorted
list of the four ids (the code joins them with commas into a string); the
optional `reason` string a cancellation stores is never inspected and is
omitted. -/
structure AvoidEntry where
  sig : List ℕ
  ts : ℚ
deriving Repr, DecidableEq

/-- The per-court live match state built by `_create_match_on_court`.  The
`status`/`reason` fields are display-only and omitted. -/
structure MatchState where
  match_id : ℕ
  court_id : ℕ
  created_at : ℚ
  start_at : ℚ
  team_a_ids : List ℕ
  team_b_ids : List ℕ
  team_mmr_a : ℚ
  team_mmr_b : ℚ
deriving Repr, DecidableEq

/-- A `match_history` record (the fields consumed by
`_recompute_avg_match_minutes` plus identification; metadata omitted). -/
structure MatchRecord where
  match_id : ℕ
  court_id : ℕ
  created_at : ℚ
  start_at : ℚ
  end_at : ℚ
  duration_sec : ℤ
  team_a_ids : List ℕ
  team_b_ids : List ℕ
  winner : Team
  canceled : Bool := false
deriving Repr, DecidableEq

/-- An event: only the fields the match lifecycle touches (the code calls the
second field "matches", a reserved word here). -/
structure Event where
  participants : List ℕ := []
  match_ids : List ℕ := []
deriving Repr, DecidableEq

/-- The active scoring configuration (`system_settings["scoring"]`). -/
structure Scoring where
  points : ℤ := 21
  bo : ℤ := 1
  cap : ℤ := 30
deriving Repr, DecidableEq

/-- The world state: the parts of the JSON blob the matchmaking/rating core
reads or writes.  Dicts are insertion-ordered association lists. -/
structure Db where
  players : List (ℕ × Player) := []
  mod_ids : List ℕ := []
  total_courts : ℤ := 2
  is_session_active : Bool := false
  current_event_id : Option ℕ := none
  scoring : Scoring := {}
  automatch : List (ℕ × Bool) := []
  avoid_4 : List AvoidEntry := []
  recent_teammates : List ((ℕ × ℕ) × DivEntry) := []
  recent_opponents : List ((ℕ × ℕ) × DivEntry) := []
  avg_match_minutes : ℤ := 12
  courts : List (ℕ × Option MatchState) := []
  events : List (ℕ × Event) := []
  match_history : List MatchRecord := []
deriving Repr, DecidableEq

/-- `SUPER_ADMIN_ID` (an opaque string constant in the code). -/
def SUPER_ADMIN_ID : ℕ := 0

/-- Dict read `d.get(k)`: first binding of the key. -/
def alookup {κ β : Type} [DecidableEq κ] (k : κ) : List (κ × β) → Option β
  | [] => none
  | kv :: rest => if k = kv.1 then some kv.2 else alookup k rest

/-- Dict write `d[k] = v`: overwrite the binding(s) if present, else append. -/
def assocSet {κ β : Type} [DecidableEq κ] (l : List (κ × β)) (k : κ) (v : β) :
    List (κ × β) :=
  if l.any (fun kv => kv.1 = k) then
    l.map (fun kv => if kv.1 = k then (k, v) else kv)
  else l ++ [(k, v)]

theorem alookup_assocSet_self {κ β : Type} [DecidableEq κ]
    (l : List (κ × β)) (k : κ) (v : β) : alookup k (assocSet l k v) = some v := by
  unfold assocSet
  split_ifs with h
  · induction l with
    | nil => simp at h
    | cons kv rest ih =>
      obtain ⟨k1, v1⟩ := kv
      by_cases hk : k1 = k
      · simp [alookup, hk]
      · simp only [List.any_cons, Bool.or_eq_true, decide_eq_true_eq] at h
        rcases h with h1 | h1
        · exact absurd h1 hk
        · simp only [List.map_cons, if_neg hk, alookup]
          rw [if_neg (fun he => hk he.symm)]
          exact ih h1
  · induction l with
    | nil => simp [alookup]
    | cons kv rest ih =>
      obtain ⟨k1, v1⟩ := kv
      simp only [List.any_cons, Bool.or_eq_true, decide_eq_true_eq, not_or] at h
      simp only [List.cons_append, alookup]
      rw [if_neg (fun he => h.1 he.symm)]
      exact ih h.2

theorem alookup_assocSet_ne {κ β : Type} [DecidableEq κ]
    (l : List (κ × β)) (k k' : κ) (v : β) (hne : k ≠ k') :
    alookup k (assocSet l k' v) = alookup k l := by
  unfold assocSet
  split_ifs with h
  · clear h
    induction l with
    | nil => rfl
    | cons kv rest ih =>
      obtain ⟨k1, v1⟩ := kv
      by_cases hk : k1 = k'
      · simp only [List.map_cons, if_pos hk, alookup]
        rw [if_neg hne, if_neg (by rw [hk]; exact hne)]
        exact ih
      · simp only [List.map_cons, if_neg hk, alookup]
        by_cases hk2 : k = k1
        · rw [if_pos hk2, if_pos hk2]
        · rw [if_neg hk2, if_neg hk2]
          exact ih
  · induction l with
    | nil => simp [alookup, if_neg hne]
    | cons kv rest ih =>
      obtain ⟨k1, v1⟩ := kv
      simp only [List.any_cons, Bool.or_eq_true, decide_eq_true_eq, not_or] at h
      simp only [List.cons_append, alookup]
      by_cases hk2 : k = k1
      · rw [if_pos hk2, if_pos hk2]
      · rw [if_neg hk2, if_neg hk2]
        exact ih h.2

theorem mem_assocSet_self {κ β : Type} [DecidableEq κ]
    (l : List (κ × β)) (k : κ) (v : β) : (k, v) ∈ assocSet l k v := by
  unfold assocSet
  split_ifs with h
  · simp only [List.any_eq_true, decide_eq_true_eq] at h
    obtain ⟨kv, hmem, hk⟩ := h
    have he : (if kv.1 = k then (k, v) else kv) = (k, v) := if_pos hk
    have := List.mem_map_of_mem (fun kv => if kv.1 = k then (k, v) else kv) hmem
    simpa [he] using this
  · exact List.mem_append_right _ (by simp)

theorem assocSet_preserve {κ β : Type} [DecidableEq κ] {Q : β → Prop}
    (l : List (κ × β)) (k k' : κ) (e v : β)
    (hmem : (k, e) ∈ l) (hQ : Q e) (hQv : Q v) :
    ∃ e2, (k, e2) ∈ assocSet l k' v ∧ Q e2 := by
  unfold assocSet
  split_ifs with h
  · by_cases hk : k = k'
    · subst hk
      refine ⟨v, ?_, hQv⟩
      have he : (if (k, e).1 = k then (k, v) else (k, e)) = (k, v) := if_pos rfl
      have := List.mem_map_of_mem (fun kv => if kv.1 = k then (k, v) else kv) hmem
      simpa [he] using this
    · refine ⟨e, ?_, hQ⟩
      have he : (if (k, e).1 = k' then (k', v) else (k, e)) = (k, e) := if_neg hk
      have := List.mem_map_of_mem (fun kv => if kv.1 = k' then (k', v) else kv) hmem
      simpa [he] using this
  · exact ⟨e, List.mem_append_left _ hmem, hQ⟩

theorem alookup_map_update {κ β : Type} [DecidableEq κ]
    (l : List (κ × β)) (k u : κ) (f : β → β) :
    alookup k (l.map fun kv => if kv.1 = u then (kv.1, f kv.2) else kv) =
      (alookup k l).map (fun p => if k = u then f p else p) := by
  induction l with
  | nil => rfl
  | cons kv rest ih =>
    obtain ⟨k1, v1⟩ := kv
    by_cases hu : k1 = u
    · by_cases hk : k = k1
      · subst hk hu
        simp [alookup, ih]
      · simp only [List.map_cons, if_pos hu, alookup]
        rw [if_neg hk, if_neg hk]
        exact ih
    · by_cases hk : k = k1
      · subst hk
        simp [alookup, hu]
      · simp only [List.map_cons, if_neg hu, alookup]
        rw [if_neg hk, if_neg hk]
        exact ih

/-- Matchmaking tuning constants (`app.py` top of the matchmaking section). -/
def WAIT_WINDOW_SEC : ℚ := 180

def WAIT_EXPAND_STEPS : List ℚ := [300, 480, 720]

def W_WAIT : ℚ := 35

def ALPHA_DIFF : ℚ := 2.5

def BETA_WITHIN : ℚ := 1.8

def HARD_SKILL_THRESHOLD : ℤ := 500

def DIVERSITY_WINDOW_SEC : ℚ := 3600

def TEAMMATE_PENALTIES : List ℚ := [1200, 700, 400, 200, 100]

def OPPONENT_PENALTIES : List ℚ := [600, 300, 150, 80]

def GROUP4_HARD_BAN_SEC : ℚ := 600

def GROUP4_SOFT_PENALTY : ℚ := 2000

def GROUP4_SOFT_SEC : ℚ := 3600

def PRIORITY_WAIT_BOOST : ℚ := 9999

def NOISE_SCALE : ℚ := 5

/-- `is_unranked`: fewer than 10 calibration games played. -/
def is_unranked (p : Player) : Bool := p.calib_played < 10

/-- `effective_mmr_for_matchmaking`: during calibration the rating is bumped
by win/loss differential and streak. -/
def effective_mmr_for_matchmaking (p : Player) : ℤ :=
  if is_unranked p then p.mmr + (p.calib_wins - p.calib_losses) * 60 + p.calib_streak * 40
  else p.mmr

/-- `db["players"][uid]` for a key the code assumes present. -/
def getP (db : Db) (uid : ℕ) : Player := (alookup uid db.players).getD { id := uid }

/-- In-place mutation of one player record (`p = db["players"][uid]; p[...] = ...`). -/
def setP (db : Db) (uid : ℕ) (f : Player → Player) : Db :=
  { db with players := db.players.map (fun kv => if kv.1 = uid then (kv.1, f kv.2) else kv) }

/-- `_pair_key`: the `"u|v"` string with the two ids sorted, as an ordered pair. -/
def pair_key (a b : ℕ) : ℕ × ℕ := if a ≤ b then (a, b) else (b, a)

/-- `_group4_sig`: the comma-joined sorted id string, as a sorted list. -/
def group4_sig (four_ids : List ℕ) : List ℕ :=
  four_ids.insertionSort (fun a b => a ≤ b)

/-- `_eligible_players`: queued, cooled-down players, oldest join first
(Python's stable sort is `insertionSort`). -/
def eligible_players (db : Db) (now : ℚ) : List Player :=
  ((db.players.map Prod.snd).filter
      (fun p => p.status = Status.queue ∧ p.cooldown_until ≤ now)).insertionSort
    (fun a b => a.queue_join_ts ≤ b.queue_join_ts)

/-- A matchmaking unit: a committed pair or a solo player. -/
structure MUnit where
  members : List Player
  ts : ℚ
  size : ℤ
deriving Repr, DecidableEq

/-- The accumulation loop of `_pair_units` (`seen` tracks consumed ids). -/
def pair_units_go (db : Db) (now : ℚ) : List Player → List ℕ → List MUnit
  | [], _ => []
  | p :: rest, seen =>
    if p.id ∈ seen then pair_units_go db now rest seen
    else
      match p.paired_with with
      | some pw =>
        match alookup pw db.players with
        | some q =>
          if q.status = Status.queue ∧ q.cooldown_until ≤ now then
            ⟨[p, q], min p.queue_join_ts q.queue_join_ts, 2⟩ ::
              pair_units_go db now rest (p.id :: pw :: seen)
          else ⟨[p], p.queue_join_ts, 1⟩ :: pair_units_go db now rest (p.id :: seen)
        | none => ⟨[p], p.queue_join_ts, 1⟩ :: pair_units_go db now rest (p.id :: seen)
      | none => ⟨[p], p.queue_join_ts, 1⟩ :: pair_units_go db now rest (p.id :: seen)

/-- `_pair_units`: group the sorted eligible players into units, then sort by
the unit priority timestamp. -/
def pair_units (db : Db) (players_sorted : List Player) (now : ℚ) : List MUnit :=
  (pair_units_go db now players_sorted []).insertionSort (fun u v => u.ts ≤ v.ts)

/-- `_player_wait`: seconds waited, boosted for priority players. -/
def player_wait (p : Player) (now : ℚ) : ℚ :=
  max 0 (now - p.queue_join_ts) + (if p.priority_match then PRIORITY_WAIT_BOOST else 0)

/-- Python `max` on a non-empty list (callers guarantee non-emptiness). -/
def listMaxQ : List ℚ → ℚ
  | [] => 0
  | x :: xs => xs.foldl max x

def listMaxZ : List ℤ → ℤ
  | [] => 0
  | x :: xs => xs.foldl max x

def listMinZ : List ℤ → ℤ
  | [] => 0
  | x :: xs => xs.foldl min x

/-- The wait of a unit: the max wait over its members. -/
def unit_wait (u : MUnit) (now : ℚ) : ℚ :=
  listMaxQ (u.members.map (fun m => player_wait m now))

/-- The window loop of `_build_candidate_pool`. -/
def build_pool_go (units : List MUnit) (now oldest : ℚ) : List ℚ → List MUnit × List ℕ
  | [] => ([], [])
  | w :: ws =>
    let pool := units.filter (fun u => oldest - w ≤ unit_wait u now)
    if 4 ≤ (pool.map (fun u => u.size)).sum then
      (pool, pool.foldr (fun u acc => u.members.map (fun m => m.id) ++ acc) [])
    else build_pool_go units now oldest ws

/-- `_build_candidate_pool`: progressively widen the wait window until at
least 4 player slots are available. -/
def build_candidate_pool (units : List MUnit) (now : ℚ) : List MUnit × List ℕ :=
  if units = [] then ([], [])
  else
    let oldest := listMaxQ (units.map (fun u => unit_wait u now))
    build_pool_go units now oldest ([WAIT_WINDOW_SEC] ++ WAIT_EXPAND_STEPS ++ [999999])

/-- `_cleanup_diversity`: drop expired teammate/opponent entries and `avoid_4`
entries older than the soft window. -/
def cleanup_diversity (db : Db) (now : ℚ) : Db :=
  { db with
    recent_teammates :=
      db.recent_teammates.filter (fun kv => ¬ (DIVERSITY_WINDOW_SEC < now - kv.2.ts)),
    recent_opponents :=
      db.recent_opponents.filter (fun kv => ¬ (DIVERSITY_WINDOW_SEC < now - kv.2.ts)),
    avoid_4 := db.avoid_4.filter (fun e => now - e.ts ≤ GROUP4_SOFT_SEC) }

/-- The scan of `_score_group4_diversity` over `avoid_4`.  In the source the
final `return 0` follows the loop: an entry matching the signature inside the
hard window returns `None` (hard ban), inside the soft window returns the
decayed penalty, and if no entry decides, `0`. -/
def score_group4_go (sig : List ℕ) (now : ℚ) : List AvoidEntry → Option ℚ
  | [] => some 0
  | e :: rest =>
    if e.sig ≠ sig then score_group4_go sig now rest
    else
      if now - e.ts ≤ GROUP4_HARD_BAN_SEC then none
      else if now - e.ts ≤ GROUP4_SOFT_SEC then
        some (GROUP4_SOFT_PENALTY * (1 - (now - e.ts) / GROUP4_SOFT_SEC))
      else score_group4_go sig now rest

/-- `_score_group4_diversity`: `none` models the Python `None` hard ban. -/
def score_group4_diversity (db : Db) (four_ids : List ℕ) (now : ℚ) : Option ℚ :=
  score_group4_go (group4_sig four_ids) now db.avoid_4

/-- Penalty table lookup: `tbl[count-1]` for `0 < count ≤ len`, last entry
beyond the table. -/
def repeat_penalty (tbl : List ℚ) (entry : Option DivEntry) : ℚ :=
  match entry with
  | none => 0
  | some e =>
    if 0 < e.count ∧ e.count ≤ (tbl.length : ℤ) then tbl.getD (e.count - 1).toNat 0
    else if (tbl.length : ℤ) < e.count then tbl.getLastD 0
    else 0

/-- Ordered pairs `(team[i], team[j])`, `i < j`, of the nested loops. -/
def pairs_upper : List ℕ → List (ℕ × ℕ)
  | [] => []
  | x :: xs => xs.map (fun y => (x, y)) ++ pairs_upper xs

/-- All `(u, v)` pairs of the opponent double loop. -/
def cross_pairs (xs ys : List ℕ) : List (ℕ × ℕ) :=
  xs.foldr (fun u acc => ys.map (fun v => (u, v)) ++ acc) []

/-- `_score_pair_diversity`: teammate repetition penalties (committed pairs
exempt) plus opponent repetition penalties. -/
def score_pair_diversity (db : Db) (team_ids opponent_ids : List ℕ)
    (partner_pair_set : List (ℕ × ℕ)) : ℚ :=
  ((pairs_upper team_ids).map (fun uv =>
      if pair_key uv.1 uv.2 ∈ partner_pair_set then 0
      else repeat_penalty TEAMMATE_PENALTIES
        (alookup (pair_key uv.1 uv.2) db.recent_teammates))).sum +
  ((cross_pairs team_ids opponent_ids).map (fun uv =>
      repeat_penalty OPPONENT_PENALTIES
        (alookup (pair_key uv.1 uv.2) db.recent_opponents))).sum

/-- `_skill_score`: weighted team-sum difference plus within-team disparity. -/
def skill_score (db : Db) (teamA teamB : List ℕ) : ℚ :=
  let mmrA := teamA.map (fun i => effective_mmr_for_matchmaking (getP db i))
  let mmrB := teamB.map (fun i => effective_mmr_for_matchmaking (getP db i))
  ALPHA_DIFF * ((|mmrA.sum - mmrB.sum| : ℤ) : ℚ) +
    BETA_WITHIN * (((listMaxZ mmrA - listMinZ mmrA) + (listMaxZ mmrB - listMinZ mmrB) : ℤ) : ℚ)

/-- `_get_partner_pairs`: the committed pairs inside the given four (the code
collects them into a set; membership is all that is consumed). -/
def get_partner_pairs (db : Db) (four_ids : List ℕ) : List (ℕ × ℕ) :=
  four_ids.filterMap (fun uid =>
    match alookup uid db.players with
    | none => none
    | some p =>
      match p.paired_with with
      | none => none
      | some pw => if pw ∈ four_ids then some (pair_key uid pw) else none)

/-- Does this split separate some committed pair? -/
def separates_pair (partner_pairs : List (ℕ × ℕ)) (tA tB : List ℕ) : Bool :=
  partner_pairs.any (fun uv => (uv.1 ∈ tA ∧ uv.2 ∈ tB) ∨ (uv.1 ∈ tB ∧ uv.2 ∈ tA))

/-- `_best_split_for_four`: score the three 2v2 partitions, skipping those
separating a committed pair; `noise i` is the `random.uniform(0, NOISE_SCALE)`
sample of the i-th considered split. -/
def best_split_for_four (db : Db) (four_ids : List ℕ) (now : ℚ) (noise : ℕ → ℚ) :
    Option (List ℕ × List ℕ × ℚ) :=
  match four_ids with
  | [a0, a1, a2, a3] =>
    let splits := [([a0, a1], [a2, a3]), ([a0, a2], [a1, a3]), ([a0, a3], [a1, a2])]
    let partner_pairs := get_partner_pairs db [a0, a1, a2, a3]
    match score_group4_diversity db [a0, a1, a2, a3] now with
    | none => none
    | some g4_pen =>
      let s_wait :=
        -W_WAIT * ((([a0, a1, a2, a3].map (fun uid => player_wait (getP db uid) now)).sum) / 60)
      splits.enum.foldl (fun best iab =>
        if separates_pair partner_pairs iab.2.1 iab.2.2 then best
        else
          let s_skill := skill_score db iab.2.1 iab.2.2
          let s_div := score_pair_diversity db iab.2.1 iab.2.2 partner_pairs +
                       score_pair_diversity db iab.2.2 iab.2.1 partner_pairs + g4_pen
          let total := s_wait + s_skill + s_div + noise iab.1
          match best with
          | none => some (iab.2.1, iab.2.2, total)
          | some b => if total < b.2.2 then some (iab.2.1, iab.2.2, total) else best) none
  | _ => none

/-- `itertools.combinations`: k-subsets in lexicographic position order. -/
def combinations {α : Type} : ℕ → List α → List (List α)
  | 0, _ => [[]]
  | _ + 1, [] => []
  | n + 1, x :: xs => ((combinations n xs).map (fun c => x :: c)) ++ combinations (n + 1) xs

/-- The paired rule of `_choose_four_for_court`: a queued partner of a combo
member must be in the combo. -/
def paired_rule_ok (db : Db) (combo : List ℕ) : Bool :=
  combo.all (fun uid =>
    match (getP db uid).paired_with with
    | none => true
    | some pw =>
      match alookup pw db.players with
      | none => true
      | some q => if q.status = Status.queue then decide (pw ∈ combo) else true)

/-- The candidate the selector returns. -/
structure Pick where
  combo : List ℕ
  teamA : List ℕ
  teamB : List ℕ
  score : ℚ
deriving Repr, DecidableEq

/-- Clearing the `priority_match` flags of the chosen combo. -/
def clear_priority (db : Db) (ids : List ℕ) : Db :=
  ids.foldl (fun d uid => setP d uid (fun p => { p with priority_match := false })) db

/-- `_choose_four_for_court`: the full selector.  `noise i j` is the noise
sample of split `j` of the i-th enumerated combination.  Returns the pick and
the mutated db (diversity cleanup, cleared priority flags). -/
def choose_four_for_court (db : Db) (now : ℚ) (noise : ℕ → ℕ → ℚ) : Option Pick × Db :=
  let eligible := eligible_players db now
  if eligible.length < 4 then (none, db)
  else
    let units := pair_units db eligible now
    let db1 := cleanup_diversity db now
    let pool_ids := (build_candidate_pool units now).2
    if pool_ids.length < 4 then (none, db1)
    else
      let cand := pool_ids.take 14
      if cand.length < 4 then (none, db1)
      else
        let has_alternative := 4 < cand.length
        let best := (combinations 4 cand).enum.foldl (fun best ic =>
          if ¬ paired_rule_ok db1 ic.2 then best
          else
            match best_split_for_four db1 ic.2 now (noise ic.1) with
            | none => best
            | some s =>
              if has_alternative ∧
                  HARD_SKILL_THRESHOLD <
                    |(s.1.map (fun i => effective_mmr_for_matchmaking (getP db1 i))).sum -
                      (s.2.1.map (fun i => effective_mmr_for_matchmaking (getP db1 i))).sum| then
                best
              else
                match best with
                | none => some { combo := ic.2, teamA := s.1, teamB := s.2.1, score := s.2.2 }
                | some b =>
                  if s.2.2 < b.score then
                    some { combo := ic.2, teamA := s.1, teamB := s.2.1, score := s.2.2 }
                  else best) none
        (best, match best with
               | some b => clear_priority db1 b.combo
               | none => db1)

/-- `_current_event`. -/
def current_event (db : Db) : Option Event :=
  db.current_event_id.bind (fun eid => alookup eid db.events)

/-- `_touch_participant`: record the player in the active event. -/
def touch_participant (db : Db) (uid : ℕ) : Db :=
  match db.current_event_id with
  | none => db
  | some eid =>
    match alookup eid db.events with
    | none => db
    | some evt =>
      if uid ∈ evt.participants then db
      else
        let evt2 := { evt with participants := evt.participants ++ [uid] }
        { db with events := assocSet db.events eid evt2 }

/-- Append the match id to the active event (`evt["matches"].append(mid)`). -/
def add_event_match (db : Db) (mid : ℕ) : Db :=
  match db.current_event_id with
  | none => db
  | some eid =>
    match alookup eid db.events with
    | none => db
    | some evt =>
      let evt2 := { evt with match_ids := evt.match_ids ++ [mid] }
      { db with events := assocSet db.events eid evt2 }

/-- One upsert of a teammate/opponent store entry: stamp `ts`, bump `count`. -/
def div_upsert (store : List ((ℕ × ℕ) × DivEntry)) (k : ℕ × ℕ) (now : ℚ) :
    List ((ℕ × ℕ) × DivEntry) :=
  assocSet store k ⟨now, ((alookup k store).getD ⟨0, 0⟩).count + 1⟩

/-- `_update_diversity_after_match`: bump teammate pairs, opponent pairs and
record the exact 4-group. -/
def update_diversity_after_match (db : Db) (team_a_ids team_b_ids : List ℕ) (now : ℚ) : Db :=
  { db with
    recent_teammates := (pairs_upper team_a_ids ++ pairs_upper team_b_ids).foldl
      (fun st uv => div_upsert st (pair_key uv.1 uv.2) now) db.recent_teammates,
    recent_opponents := (cross_pairs team_a_ids team_b_ids).foldl
      (fun st uv => div_upsert st (pair_key uv.1 uv.2) now) db.recent_opponents,
    avoid_4 := db.avoid_4 ++ [⟨group4_sig (team_a_ids ++ team_b_ids), now⟩] }

/-- `_create_match_on_court`: build the match state, flip the four players to
playing, register them in the event, occupy the court and update the
Diversity Ledger.  `mid` is the fresh `_match_id()`. -/
def create_match_on_court (db : Db) (court_id : ℕ) (teamA_ids teamB_ids : List ℕ)
    (now : ℚ) (mid : ℕ) : Db × MatchState :=
  let mmrA := ((teamA_ids.map
      (fun i => ((effective_mmr_for_matchmaking (getP db i) : ℤ) : ℚ))).sum) / (teamA_ids.length : ℚ)
  let mmrB := ((teamB_ids.map
      (fun i => ((effective_mmr_for_matchmaking (getP db i) : ℤ) : ℚ))).sum) / (teamB_ids.length : ℚ)
  let ms : MatchState :=
    ⟨mid, court_id, now, now + 60, teamA_ids, teamB_ids, mmrA, mmrB⟩
  let db1 := (teamA_ids ++ teamB_ids).foldl
    (fun d uid => touch_participant (setP d uid (fun p => { p with status := Status.playing })) uid) db
  let db2 := add_event_match db1 mid
  let db3 := { db2 with courts := assocSet db2.courts court_id (some ms) }
  (update_diversity_after_match db3 teamA_ids teamB_ids now, ms)

/-- `_maybe_run_automatch`: fill every empty automatch-enabled court.
`noise i` and `mids i` are the randomness for the i-th court slot. -/
def maybe_run_automatch (db : Db) (now : ℚ) (noise : ℕ → ℕ → ℕ → ℚ) (mids : ℕ → ℕ) :
    Db × Bool :=
  if ¬ db.is_session_active then (db, false)
  else
    (db.courts.map Prod.fst).enum.foldl (fun acc icid =>
      match alookup icid.2 acc.1.courts with
      | some none =>
        if (alookup icid.2 acc.1.automatch).getD false then
          match choose_four_for_court acc.1 now (noise icid.1) with
          | (some pick, db1) =>
            ((create_match_on_court db1 icid.2 pick.teamA pick.teamB now (mids icid.1)).1, true)
          | (none, db1) => (db1, acc.2)
        else acc
      | _ => acc) (db, false)

/-- `_validate_set_score`: `none` stands for the empty / non-integer inputs the
code rejects before parsing. -/
def validate_set_score (a? b? : Option ℤ) (points cap : ℤ) : Bool :=
  match a?, b? with
  | some a, some b =>
    if a < 0 ∨ b < 0 then false
    else
      if max a b < points then false
      else if max a b < cap ∧ max a b - min a b < 2 then false
      else if cap ≤ max a b ∧ max a b ≠ cap then false
      else if cap ≤ max a b ∧ (min a b ≠ cap - 1 ∧ min a b ≠ cap - 2) then false
      else if cap < max a b ∨ cap < min a b then false
      else true
  | _, _ => false

/-- The cleaning loop of `_winner_from_sets`: drop `None` entries and sets with
both scores empty, validate the rest. -/
def clean_sets (points cap : ℤ) : List (Option (Option ℤ × Option ℤ)) → Option (List (ℤ × ℤ))
  | [] => some []
  | none :: rest => clean_sets points cap rest
  | some ab :: rest =>
    if ab.1 = none ∧ ab.2 = none then clean_sets points cap rest
    else
      match ab.1, ab.2 with
      | some a, some b =>
        if validate_set_score (some a) (some b) points cap then
          (clean_sets points cap rest).map (fun l => (a, b) :: l)
        else none
      | _, _ => none

/-- The result dict of `_winner_from_sets`. -/
structure WinnerRes where
  sets_won_a : ℤ
  sets_won_b : ℤ
  total_points_a : ℤ
  total_points_b : ℤ
  winner : Team
  clean : List (ℤ × ℤ)
deriving Repr, DecidableEq

/-- `_winner_from_sets`: clean and validate the sets, check the best-of
constraints, and determine the winner (best-of-2 by total points). -/
def winner_from_sets (set_scores : List (Option (Option ℤ × Option ℤ)))
    (bo points cap : ℤ) : Option WinnerRes :=
  match clean_sets points cap set_scores with
  | none => none
  | some clean =>
    if clean.length = 0 then none
    else if bo = 1 ∧ clean.length ≠ 1 then none
    else if bo = 2 ∧ clean.length ≠ 2 then none
    else if bo = 3 ∧ (clean.length < 2 ∨ 3 < clean.length) then none
    else if bo = 3 ∧ clean.length = 3 ∧
        (2 ≤ ((clean.take 2).filter (fun ab => ab.2 < ab.1)).length ∨
         2 ≤ ((clean.take 2).filter (fun ab => ab.1 < ab.2)).length) then none
    else if bo = 3 ∧ clean.length = 2 ∧
        (clean.filter (fun ab => ab.2 < ab.1)).length ≠ 2 ∧
        (clean.filter (fun ab => ab.1 < ab.2)).length ≠ 2 then none
    else
      let sets_won_a : ℤ := ((clean.filter (fun ab => ab.2 < ab.1)).length : ℤ)
      let sets_won_b : ℤ := (clean.length : ℤ) - sets_won_a
      let total_a := (clean.map Prod.fst).sum
      let total_b := (clean.map Prod.snd).sum
      let winner : Team :=
        if bo = 2 then
          if total_b < total_a then Team.A
          else if total_a < total_b then Team.B
          else if sets_won_b < sets_won_a then Team.A
          else if sets_won_a < sets_won_b then Team.B
          else
            match clean.getLast? with
            | some ab => if ab.2 < ab.1 then Team.A else Team.B
            | none => Team.B
        else if sets_won_b < sets_won_a then Team.A else Team.B
      some ⟨sets_won_a, sets_won_b, total_a, total_b, winner, clean⟩

/-- The exact value of `_elo_expected(ra, rb) = 1 / (1 + 10 ** ((rb-ra)/400))`
when `(rb - ra) / 400` is the integer `k`. -/
def elo_expected_zint (k : ℤ) : ℚ := 1 / (1 + (10 : ℚ) ^ k)

/-- `_score_multiplier`: margin-of-victory factor in `[1, 1.8]`. -/
def score_multiplier (total_a total_b sets_won_a sets_won_b : ℤ) : ℚ :=
  let m : ℚ := ((|total_a - total_b| : ℤ) : ℚ) / ((max 1 (total_a + total_b) : ℤ) : ℚ)
  min 1.8 ((1 + min 0.6 (m * 2)) + min 0.2 (((|sets_won_a - sets_won_b| : ℤ) : ℚ) * 0.1))

/-- `_k_for_player`: calibrating players move twice as fast. -/
def k_for_player (p : Player) : ℤ := if is_unranked p then 50 else 25

/-- The result dict of `_apply_match_results`. -/
structure ApplyRes where
  winner : Team
  sets_won_a : ℤ
  sets_won_b : ℤ
  total_points_a : ℤ
  total_points_b : ℤ
  set_scores : List (ℤ × ℤ)
  mmr_changes : List (ℕ × ℤ)
  sf : ℚ
  expected_a : ℚ
deriving Repr, DecidableEq

/-- `_apply_match_results`: validate the submitted sets, compute the Elo-style
deltas (the transcendental `_elo_expected` is the parameter `eaOf`), and apply
all per-player stat, rating and calibration updates. -/
def apply_match_results (eaOf : ℚ → ℚ → ℚ) (db : Db) (ms : MatchState)
    (set_scores : List (Option (Option ℤ × Option ℤ))) : Option (Db × ApplyRes) :=
  match winner_from_sets set_scores db.scoring.bo db.scoring.points db.scoring.cap with
  | none => none
  | some res =>
    let winner := res.winner
    let teamA := ms.team_a_ids
    let teamB := ms.team_b_ids
    let ea := eaOf ms.team_mmr_a ms.team_mmr_b
    let sA : ℚ := if winner = Team.A then 1 else 0
    let sf := score_multiplier res.total_points_a res.total_points_b res.sets_won_a res.sets_won_b
    let dA := (25 * sf) * (sA - ea)
    let dB := -dA
    let mmr_changes := (teamA ++ teamB).map (fun uid =>
      (uid, pyRound ((if uid ∈ teamA then dA else dB) *
        (((k_for_player (getP db uid) : ℤ) : ℚ) / 25))))
    let db1 := res.clean.foldl (fun d ab =>
      let d := teamA.foldl (fun d uid => setP d uid (fun p =>
        { p with points_for := p.points_for + ab.1,
                 points_against := p.points_against + ab.2 })) d
      let d := teamB.foldl (fun d uid => setP d uid (fun p =>
        { p with points_for := p.points_for + ab.2,
                 points_against := p.points_against + ab.1 })) d
      if ab.2 < ab.1 then
        let d := teamA.foldl (fun d uid => setP d uid (fun p => { p with sets_w := p.sets_w + 1 })) d
        teamB.foldl (fun d uid => setP d uid (fun p => { p with sets_l := p.sets_l + 1 })) d
      else
        let d := teamB.foldl (fun d uid => setP d uid (fun p => { p with sets_w := p.sets_w + 1 })) d
        teamA.foldl (fun d uid => setP d uid (fun p => { p with sets_l := p.sets_l + 1 })) d) db
    let win_ids := if winner = Team.A then teamA else teamB
    let lose_ids := if winner = Team.A then teamB else teamA
    let db2 := win_ids.foldl (fun d uid => setP d uid (fun p =>
      { p with match_w := p.match_w + 1, cur_streak := p.cur_streak + 1,
               best_streak := max p.best_streak (p.cur_streak + 1) })) db1
    let db3 := lose_ids.foldl (fun d uid => setP d uid (fun p =>
      { p with match_l := p.match_l + 1, cur_streak := 0 })) db2
    let db4 := mmr_changes.foldl (fun d uc =>
      setP d uc.1 (fun p =>
        let p2 := { p with mmr := p.mmr + uc.2 }
        if is_unranked p2 then
          if uc.1 ∈ win_ids then
            { p2 with calib_played := p2.calib_played + 1, calib_wins := p2.calib_wins + 1,
                      calib_streak := p2.calib_streak + 1 }
          else
            { p2 with calib_played := p2.calib_played + 1, calib_losses := p2.calib_losses + 1,
                      calib_streak := 0 }
        else p2)) db3
    some (db4, ⟨winner, res.sets_won_a, res.sets_won_b, res.total_points_a,
      res.total_points_b, res.clean, mmr_changes, sf, ea⟩)

/-- `_recompute_avg_match_minutes`: rolling clamped average duration of the
most recent (up to) 10 non-cancelled matches. -/
def recompute_avg_match_minutes (db : Db) : Db × ℤ :=
  let items := (db.match_history.filter (fun m => ¬ m.canceled)).take 10
  if items = [] then ({ db with avg_match_minutes := 12 }, 12)
  else
    let mins := items.map (fun m => ((m.duration_sec : ℤ) : ℚ) / 60)
    if mins = [] then ({ db with avg_match_minutes := 12 }, 12)
    else
      let avg := max 6 (min 30 (mins.sum / (mins.length : ℚ)))
      ({ db with avg_match_minutes := pyRound avg }, pyRound avg)

/-- `_cooldown_minutes`: rest recommendation from load ratio, clamped to
0..25, zero when capacity covers the active players. -/
def cooldown_minutes (db : Db) : ℤ :=
  let active : ℤ := ((db.players.filter (fun kv =>
      kv.2.status = Status.queue ∨ kv.2.status = Status.resting ∨
      kv.2.status = Status.playing)).length : ℤ)
  let denom := max 1 (db.total_courts * 4)
  let cd := pyRound (((db.avg_match_minutes : ℤ) : ℚ) * min 1.8 ((active : ℚ) / ((denom : ℤ) : ℚ)))
  if active ≤ denom then 0 else max 0 (min 25 cd)

/-- The per-participant update pattern of the cancel/submit loops:
`p = db["players"].get(pid); if not p: continue; ...mutate p...`. -/
def update_present (f : Player → Player) (d : Db) (pid : ℕ) : Db :=
  match alookup pid d.players with
  | none => d
  | some _ => setP d pid f

/-- `cancel_match` (`POST /api/match/cancel`), success path.  `t1` is the
`_now()` stamped on the `avoid_4` entry, `now` the second `_now()` used for
the players; the authorization guard and the court/match existence checks
return `none` where the code answers 4xx. -/
def cancel_match (db : Db) (uid cid : ℕ) (t1 now : ℚ) (noise : ℕ → ℕ → ℕ → ℚ)
    (mids : ℕ → ℕ) : Option (Db × Bool) :=
  match alookup cid db.courts with
  | none => none
  | some none => none
  | some (some state) =>
    if uid = SUPER_ADMIN_ID ∨ uid ∈ db.mod_ids ∨
        uid ∈ state.team_a_ids ∨ uid ∈ state.team_b_ids then
      let entry : AvoidEntry := ⟨group4_sig (state.team_a_ids ++ state.team_b_ids), t1⟩
      let db1 := { db with avoid_4 := db.avoid_4 ++ [entry] }
      let db2 := (state.team_a_ids ++ state.team_b_ids).foldl
        (update_present (fun p =>
          { p with status := Status.queue, queue_join_ts := now, cooldown_until := 0 })) db1
      let db3 := { db2 with courts := assocSet db2.courts cid none }
      some (maybe_run_automatch db3 now noise mids)
    else none

/-- The response data of `submit_match`. -/
structure SubmitOut where
  db : Db
  winner : Team
  cooldown_min : ℤ
  automatch_triggered : Bool

/-- `submit_match` (`POST /api/match/submit`), success path: apply the result,
record history, recompute the rolling average, rest or re-queue the four
players, free the court and try automatch. -/
def submit_match (eaOf : ℚ → ℚ → ℚ) (db : Db) (uid cid : ℕ)
    (set_scores : List (Option (Option ℤ × Option ℤ))) (now : ℚ)
    (noise : ℕ → ℕ → ℕ → ℚ) (mids : ℕ → ℕ) : Option SubmitOut :=
  match alookup cid db.courts with
  | none => none
  | some none => none
  | some (some state) =>
    if uid = SUPER_ADMIN_ID ∨ uid ∈ db.mod_ids ∨
        uid ∈ state.team_a_ids ∨ uid ∈ state.team_b_ids then
      match apply_match_results eaOf db state set_scores with
      | none => none
      | some (db1, result) =>
        let duration : ℤ := ⌊max 0 (now - state.start_at)⌋
        let record : MatchRecord := ⟨state.match_id, cid, state.created_at, state.start_at,
          now, duration, state.team_a_ids, state.team_b_ids, result.winner, false⟩
        let db2 := { db1 with match_history := record :: db1.match_history }
        let db3 := (recompute_avg_match_minutes db2).1
        let cd_min := cooldown_minutes db3
        let cd_sec := cd_min * 60
        let db4 := (state.team_a_ids ++ state.team_b_ids).foldl
          (update_present (fun p =>
            if p.auto_rest ∧ 0 < cd_sec then
              { p with queue_join_ts := now, status := Status.resting,
                       cooldown_until := now + ((cd_sec : ℤ) : ℚ) }
            else
              { p with queue_join_ts := now, status := Status.queue,
                       cooldown_until := 0 })) db3
        let db5 := { db4 with courts := assocSet db4.courts cid none }
        let r := maybe_run_automatch db5 now noise mids
        some ⟨r.1, result.winner, cd_min, r.2⟩
    else none

/-- `_refresh_courts`: create the missing court slots `1..total` (and their
automatch flags) and drop the ones beyond `total`. -/
def refresh_courts (db : Db) : Db :=
  let total := db.total_courts
  let rng := List.range' 1 total.toNat
  let courts1 := rng.foldl (fun acc i =>
    if acc.any (fun kv => kv.1 = i) then acc else acc ++ [(i, (none : Option MatchState))]) db.courts
  let am1 := rng.foldl (fun acc i =>
    if acc.any (fun kv => kv.1 = i) then acc else acc ++ [(i, false)]) db.automatch
  { db with courts := courts1.filter (fun kv => (kv.1 : ℤ) ≤ total),
            automatch := am1.filter (fun kv => (kv.1 : ℤ) ≤ total) }

/-- `admin_update_courts` (`POST /api/admin/update_courts`): clamp the
requested count to 1..10 (`none` models a missing or non-numeric count, which
the code turns into 2), store it and refresh the courts dict. -/
def admin_update_courts (db : Db) (uid : ℕ) (cnt : Option ℤ) : Option (Db × ℤ) :=
  if uid = SUPER_ADMIN_ID ∨ uid ∈ db.mod_ids then
    let c := match cnt with
      | none => 2
      | some v => max 1 (min 10 v)
    some (refresh_courts { db with total_courts := c }, c)
  else none

/-- The acceptance condition exactly as claim C1 words it: winner reaches the
target, margin at least 2 or winner at the cap, and at the cap the loser must
be exactly `cap - 1`. -/
def claim_c1_accepts (a b points cap : ℤ) : Prop :=
  points ≤ max a b ∧ (2 ≤ max a b - min a b ∨ max a b = cap) ∧
    (max a b = cap → min a b = cap - 1)

/-- C1 counterexample: the claim's formula rejects 30-28 (loser is `cap - 2`,
not `cap - 1`), but the validator accepts it, so the claimed "iff" is false at
`(30, 28)` with target 21 and cap 30. -/
theorem C1_claim_false_at_30_28 :
    validate_set_score (some 30) (some 28) 21 30 = true ∧
      ¬ claim_c1_accepts 30 28 21 30 := by
  constructor
  · decide
  · unfold claim_c1_accepts
    decide

/-- C1 (amended): a submitted set score of two integers is accepted iff both
scores are non-negative, the winner reaches the target, the winner does not
exceed the cap, below the cap the margin is at least 2, and at the cap the
loser is `cap - 1` or `cap - 2`.  (In particular 22-20, 30-29 and 30-28 are
accepted while 21-20 and 30-27 are rejected.) -/
theorem C1_accept_iff (a b points cap : ℤ) :
    validate_set_score (some a) (some b) points cap = true ↔
      (0 ≤ a ∧ 0 ≤ b ∧ points ≤ max a b ∧ max a b ≤ cap ∧
        (max a b < cap → 2 ≤ max a b - min a b) ∧
        (max a b = cap → min a b = cap - 1 ∨ min a b = cap - 2)) := by
  unfold validate_set_score
  dsimp only
  split_ifs with h1 h2 h3 h4 h5 h6 <;> simp <;> omega

theorem addmissing_keys {β : Type} (d : β) (rng : List ℕ) (l : List (ℕ × β)) (k : ℕ) :
    (∃ v, (k, v) ∈ rng.foldl (fun acc i =>
        if acc.any (fun kv => kv.1 = i) then acc else acc ++ [(i, d)]) l) ↔
      (∃ v, (k, v) ∈ l) ∨ k ∈ rng := by
  induction rng generalizing l with
  | nil => simp
  | cons i rng ih =>
    simp only [List.foldl_cons, ih, List.mem_cons]
    constructor
    · rintro (h | h)
      · split_ifs at h with hany
        · exact Or.inl h
        · rcases h with ⟨v, hv⟩
          rcases List.mem_append.mp hv with h1 | h1
          · exact Or.inl ⟨v, h1⟩
          · simp at h1
            exact Or.inr (Or.inl h1.1)
      · exact Or.inr (Or.inr h)
    · rintro (⟨v, hv⟩ | hk | hk)
      · left
        split_ifs with hany
        · exact ⟨v, hv⟩
        · exact ⟨v, List.mem_append_left _ hv⟩
      · subst hk
        left
        split_ifs with hany
        · simp only [List.any_eq_true, decide_eq_true_eq] at hany
          obtain ⟨kv, hmem, hkk⟩ := hany
          exact ⟨kv.2, by rw [← hkk]; exact hmem⟩
        · exact ⟨d, List.mem_append_right _ (by simp)⟩
      · exact Or.inr hk

theorem refresh_courts_keys (db : Db) (c : ℤ)
    (hpos : ∀ kv ∈ db.courts, 1 ≤ kv.1) (hc1 : 1 ≤ c) (k : ℕ) :
    (∃ v, (k, v) ∈ (refresh_courts { db with total_courts := c }).courts) ↔
      (1 ≤ k ∧ (k : ℤ) ≤ c) := by
  unfold refresh_courts
  simp only
  constructor
  · rintro ⟨v, hv⟩
    rw [List.mem_filter] at hv
    have hle : (k : ℤ) ≤ c := by simpa using hv.2
    have := (addmissing_keys none (List.range' 1 c.toNat) db.courts k).mp ⟨v, hv.1⟩
    rcases this with ⟨v2, hv2⟩ | hk
    · exact ⟨hpos _ hv2, hle⟩
    · rw [List.mem_range'_1] at hk
      exact ⟨hk.1, hle⟩
  · rintro ⟨h1, h2⟩
    have hk : k ∈ List.range' 1 c.toNat := by
      rw [List.mem_range'_1]
      omega
    obtain ⟨v, hv⟩ := (addmissing_keys none (List.range' 1 c.toNat) db.courts k).mpr
      (Or.inr hk)
    exact ⟨v, List.mem_filter.mpr ⟨hv, by simpa using h2⟩⟩

/-- C10: for every authorized update-courts call, the stored total court
count afterwards lies in 1..10 (missing/non-numeric counts default to 2,
out-of-range counts are clamped) and the courts dict holds exactly the keys
1..total (for any reachable pre-state, whose court keys are positive). -/
theorem C10_update_courts (db : Db) (uid : ℕ) (cnt : Option ℤ) (db2 : Db) (c : ℤ)
    (h : admin_update_courts db uid cnt = some (db2, c))
    (hpos : ∀ kv ∈ db.courts, 1 ≤ kv.1) :
    1 ≤ c ∧ c ≤ 10 ∧ db2.total_courts = c ∧ (cnt = none → c = 2) ∧
      (∀ v, cnt = some v → c = max 1 (min 10 v)) ∧
      (∀ k : ℕ, (∃ v, (k, v) ∈ db2.courts) ↔ (1 ≤ k ∧ (k : ℤ) ≤ c)) := by
  cases cnt with
  | none =>
    unfold admin_update_courts at h
    split_ifs at h with hauth
    · simp only [Option.some.injEq, Prod.mk.injEq] at h
      obtain ⟨hdb2, hc⟩ := h
      subst hc
      subst hdb2
      refine ⟨by omega, by omega, ?_, ?_, ?_, ?_⟩
      · unfold refresh_courts
        rfl
      · intro _; rfl
      · intro v hv; cases hv
      · exact refresh_courts_keys db 2 hpos (by omega)
  | some v =>
    unfold admin_update_courts at h
    split_ifs at h with hauth
    · simp only [Option.some.injEq, Prod.mk.injEq] at h
      obtain ⟨hdb2, hc⟩ := h
      subst hc
      subst hdb2
      refine ⟨by omega, by omega, ?_, ?_, ?_, ?_⟩
      · unfold refresh_courts
        rfl
      · intro hn; cases hn
      · intro w hw
        injection hw with hw
        rw [hw]
      · exact refresh_courts_keys db _ hpos (by omega)

/-- A concrete two-court state for the C10 witness. -/
def dbC10 : Db := { courts := [(1, none), (2, none)], automatch := [(1, false), (2, false)] }

/-- Witness for C10 at a concrete state and count 50 (clamped to 10). -/
theorem C10_update_courts_witness :
    ∃ db2 c, admin_update_courts dbC10 0 (some 50) = some (db2, c) ∧
      1 ≤ c ∧ c ≤ 10 ∧ db2.total_courts = c ∧
      (∀ k : ℕ, (∃ v, (k, v) ∈ db2.courts) ↔ (1 ≤ k ∧ (k : ℤ) ≤ c)) := by
  cases hadm : admin_update_courts dbC10 0 (some 50) with
  | none => exact absurd hadm (by simp [admin_update_courts, SUPER_ADMIN_ID])
  | some pr =>
    obtain ⟨db2, c⟩ := pr
    have hmain := C10_update_courts dbC10 0 (some 50) db2 c hadm
      (by intro kv hkv; simp only [dbC10, List.mem_cons, List.not_mem_nil, or_false] at hkv
          rcases hkv with rfl | rfl <;> decide)
    exact ⟨db2, c, rfl, hmain.1, hmain.2.1, hmain.2.2.1, hmain.2.2.2.2.2⟩

/-- A valid set score is never a tie. -/
theorem validate_ne (a b points cap : ℤ)
    (h : validate_set_score (some a) (some b) points cap = true) : a ≠ b := by
  unfold validate_set_score at h
  dsimp only at h
  split_ifs at h
  omega

/-- C8: for a valid best-of-2 submission of exactly two valid sets, the team
with the greater total points across both sets wins; on an exact total-point
tie the winner of the final set wins; a team winning both sets wins the
match. -/
theorem C8_bo2_total_points (a1 b1 a2 b2 points cap : ℤ)
    (h1 : validate_set_score (some a1) (some b1) points cap = true)
    (h2 : validate_set_score (some a2) (some b2) points cap = true) :
    ∃ res, winner_from_sets [some (some a1, some b1), some (some a2, some b2)]
        2 points cap = some res ∧
      (b1 + b2 < a1 + a2 → res.winner = Team.A) ∧
      (a1 + a2 < b1 + b2 → res.winner = Team.B) ∧
      (a1 + a2 = b1 + b2 → res.winner = (if b2 < a2 then Team.A else Team.B)) ∧
      (b1 < a1 ∧ b2 < a2 → res.winner = Team.A) ∧
      (a1 < b1 ∧ a2 < b2 → res.winner = Team.B) := by
  have hne1 := validate_ne a1 b1 points cap h1
  have hne2 := validate_ne a2 b2 points cap h2
  have hclean : clean_sets points cap
      [some (some a1, some b1), some (some a2, some b2)] = some [(a1, b1), (a2, b2)] := by
    simp [clean_sets, h1, h2]
  unfold winner_from_sets
  rw [hclean]
  norm_num
  refine ⟨?_, ?_, ?_, ?_, ?_⟩ <;>
    · intro hcmp
      simp only [List.filter_cons, List.filter_nil, List.map_cons, List.map_nil,
        List.sum_cons, List.sum_nil, List.length_cons, List.length_nil, decide_eq_true_eq]
      split_ifs <;>
        first
          | rfl
          | (exfalso; omega)
          | (simp_all [List.getLast?]; omega)
          | simp_all [List.getLast?]

/-- Witness for C8: sets 21-10 and 15-21 split 1-1; totals 36-31 give the
match to team A. -/
theorem C8_bo2_total_points_witness :
    ∃ res, winner_from_sets [some (some 21, some 10), some (some 15, some 21)]
        2 21 30 = some res ∧ res.winner = Team.A := by
  obtain ⟨res, heq, hgt, _, _, _, _⟩ :=
    C8_bo2_total_points 21 10 15 21 21 30 (by decide) (by decide)
  exact ⟨res, heq, hgt (by omega)⟩

/-- C5: for every settled match whose four (distinct) participants are all
past calibration, the two team-A deltas coincide, the two team-B deltas are
their exact negations, and so the team-A delta sum is the negation of the
team-B delta sum. -/
theorem C5_zero_sum (eaOf : ℚ → ℚ → ℚ) (db : Db) (ms : MatchState)
    (ss : List (Option (Option ℤ × Option ℤ))) (db2 : Db) (res : ApplyRes)
    (a0 a1 b0 b1 : ℕ)
    (h : apply_match_results eaOf db ms ss = some (db2, res))
    (hA : ms.team_a_ids = [a0, a1]) (hB : ms.team_b_ids = [b0, b1])
    (hd0 : b0 ≠ a0) (hd1 : b0 ≠ a1) (hd2 : b1 ≠ a0) (hd3 : b1 ≠ a1)
    (hcal : ∀ uid ∈ ms.team_a_ids ++ ms.team_b_ids, 10 ≤ (getP db uid).calib_played) :
    ∃ d : ℤ, res.mmr_changes = [(a0, d), (a1, d), (b0, -d), (b1, -d)] ∧
      ((res.mmr_changes.map Prod.snd).take 2).sum =
        -(((res.mmr_changes.map Prod.snd).drop 2).sum) := by
  unfold apply_match_results at h
  cases hw : winner_from_sets ss db.scoring.bo db.scoring.points db.scoring.cap with
  | none => rw [hw] at h; simp at h
  | some res0 =>
    rw [hw] at h
    simp only [Option.some.injEq, Prod.mk.injEq] at h
    obtain ⟨-, hres⟩ := h
    have hk : ∀ uid ∈ ms.team_a_ids ++ ms.team_b_ids,
        (((k_for_player (getP db uid) : ℤ) : ℚ) / 25) = 1 := by
      intro uid hu
      have := hcal uid hu
      have hun : is_unranked (getP db uid) = false := by
        simp [is_unranked]
        omega
      rw [k_for_player, hun]
      norm_num
    rw [← hres]
    simp only [hA, hB]
    rw [hA, hB] at hk
    have hk0 := hk a0 (by simp)
    have hk1 := hk a1 (by simp)
    have hk2 := hk b0 (by simp)
    have hk3 := hk b1 (by simp)
    simp only [List.cons_append, List.nil_append, List.map_cons, List.map_nil,
      List.mem_cons, List.not_mem_nil, or_false]
    rw [hk0, hk1, hk2, hk3]
    have hm0 : (b0 = a0 ∨ b0 = a1) = False := by simp [hd0, hd1]
    have hm1 : (b1 = a0 ∨ b1 = a1) = False := by simp [hd2, hd3]
    simp only [eq_self_iff_true, true_or, or_true, if_true, hm0, hm1, if_false,
      mul_one, pyRound_neg]
    refine ⟨_, rfl, ?_⟩
    simp

/-- The code's `_elo_expected(r, r)` at equal team ratings is exactly `1/2`
(`10 ** 0.0 = 1`); witnesses instantiate the abstracted expected-score
function with it. -/
def eaHalf : ℚ → ℚ → ℚ := fun _ _ => 1/2

/-- A post-calibration player in a live match, for concrete scenarios. -/
def mkRanked (i : ℕ) (mmr : ℤ) : ℕ × Player :=
  (i, { id := i, mmr := mmr, status := Status.playing, calib_played := 10 })

/-- Four equal ranked players, for the C5 witness. -/
def dbC5 : Db := { players := [mkRanked 20 1000, mkRanked 21 1000, mkRanked 22 1000, mkRanked 23 1000] }

/-- The live match of `dbC5`. -/
def msC5 : MatchState := ⟨5, 1, 0, 60, [20, 21], [22, 23], 1000, 1000⟩

/-- Witness for C5: a concrete 21-15 settlement of a 1000-rated 2v2 yields
deltas of the shape `[d, d, -d, -d]`. -/
theorem C5_zero_sum_witness :
    ∃ db2 res, apply_match_results eaHalf dbC5 msC5 [some (some 21, some 15)] = some (db2, res) ∧
      ∃ d : ℤ, res.mmr_changes = [(20, d), (21, d), (22, -d), (23, -d)] := by
  cases happly : apply_match_results eaHalf dbC5 msC5 [some (some 21, some 15)] with
  | none =>
    exfalso
    unfold apply_match_results at happly
    have hw : winner_from_sets [some (some 21, some 15)]
        dbC5.scoring.bo dbC5.scoring.points dbC5.scoring.cap =
        some ⟨1, 0, 21, 15, Team.A, [(21, 15)]⟩ := by decide
    rw [hw] at happly
    simp at happly
  | some pr =>
    obtain ⟨db2, res⟩ := pr
    obtain ⟨d, hd, -⟩ := C5_zero_sum eaHalf dbC5 msC5 [some (some 21, some 15)] db2 res
      20 21 22 23 happly rfl rfl (by decide) (by decide) (by decide) (by decide)
      (by intro uid hu
          simp only [msC5] at hu
          simp only [List.cons_append, List.nil_append, List.mem_cons, List.not_mem_nil,
            or_false] at hu
          rcases hu with rfl | rfl | rfl | rfl <;> decide)
    exact ⟨db2, res, rfl, d, hd⟩

/-- A rounded value in `[0, 1/2)` is zero. -/
theorem pyRound_eq_zero {x : ℚ} (h0 : 0 ≤ x) (h1 : x < 1/2) : pyRound x = 0 := by
  have hf : ⌊x⌋ = 0 := Int.floor_eq_zero_iff.mpr ⟨h0, by linarith⟩
  unfold pyRound
  rw [Int.fract, hf]
  norm_num
  intro h
  linarith

/-- The margin factor is never negative. -/
theorem score_multiplier_nonneg (ta tb sa sb : ℤ) : 0 ≤ score_multiplier ta tb sa sb := by
  unfold score_multiplier
  have h1 : (0:ℚ) ≤ ((|ta - tb| : ℤ) : ℚ) := by positivity
  have h2 : (0:ℚ) < ((max 1 (ta + tb) : ℤ) : ℚ) := by
    have h3 : (1:ℤ) ≤ max 1 (ta + tb) := le_max_left _ _
    have : (1:ℚ) ≤ ((max 1 (ta + tb) : ℤ) : ℚ) := by exact_mod_cast h3
    linarith
  have hm : 0 ≤ ((|ta - tb| : ℤ) : ℚ) / ((max 1 (ta + tb) : ℤ) : ℚ) := div_nonneg h1 h2.le
  have hsd : (0:ℚ) ≤ ((|sa - sb| : ℤ) : ℚ) := by positivity
  have hmin1 : (0:ℚ) ≤ min 0.6 (((|ta - tb| : ℤ) : ℚ) / ((max 1 (ta + tb) : ℤ) : ℚ) * 2) :=
    le_min (by norm_num) (by linarith)
  have hmin2 : (0:ℚ) ≤ min 0.2 (((|sa - sb| : ℤ) : ℚ) * 0.1) :=
    le_min (by norm_num) (by linarith)
  exact le_min (by norm_num) (by linarith)

/-- The per-player K ratio is never negative. -/
theorem kp_nonneg (p : Player) : (0:ℚ) ≤ ((k_for_player p : ℤ) : ℚ) / 25 := by
  unfold k_for_player
  split_ifs <;> norm_num

/-- C4 (amended): every applied rating delta is the banker's rounding of the
scaled Elo delta; it is non-negative for members of the winning team and
non-positive for members of the losing team, but it can be zero (the code has
no minimum-magnitude clamp). -/
theorem C4_delta_signs (eaOf : ℚ → ℚ → ℚ) (db : Db) (ms : MatchState)
    (ss : List (Option (Option ℤ × Option ℤ))) (db2 : Db) (res : ApplyRes)
    (h : apply_match_results eaOf db ms ss = some (db2, res))
    (hea0 : 0 ≤ eaOf ms.team_mmr_a ms.team_mmr_b)
    (hea1 : eaOf ms.team_mmr_a ms.team_mmr_b ≤ 1) :
    ∀ uc ∈ res.mmr_changes,
      (res.winner = Team.A →
        (uc.1 ∈ ms.team_a_ids → 0 ≤ uc.2) ∧ (uc.1 ∉ ms.team_a_ids → uc.2 ≤ 0)) ∧
      (res.winner = Team.B →
        (uc.1 ∈ ms.team_a_ids → uc.2 ≤ 0) ∧ (uc.1 ∉ ms.team_a_ids → 0 ≤ uc.2)) := by
  unfold apply_match_results at h
  cases hw : winner_from_sets ss db.scoring.bo db.scoring.points db.scoring.cap with
  | none => rw [hw] at h; simp at h
  | some res0 =>
    rw [hw] at h
    simp only [Option.some.injEq, Prod.mk.injEq] at h
    obtain ⟨-, hres⟩ := h
    rw [← hres]
    intro uc hmem
    simp only [List.mem_map] at hmem
    obtain ⟨uid, -, rfl⟩ := hmem
    have hsf := score_multiplier_nonneg res0.total_points_a res0.total_points_b
      res0.sets_won_a res0.sets_won_b
    have hkp := kp_nonneg (getP db uid)
    constructor
    · intro hwin
      simp only at hwin
      rw [hwin]
      simp only [eq_self_iff_true, if_true]
      constructor
      · intro hmemA
        rw [if_pos hmemA]
        apply pyRound_nonneg
        have : (0:ℚ) ≤ 25 * score_multiplier res0.total_points_a res0.total_points_b
            res0.sets_won_a res0.sets_won_b * (1 - eaOf ms.team_mmr_a ms.team_mmr_b) := by
          apply mul_nonneg (by linarith) (by linarith)
        exact mul_nonneg this hkp
      · intro hmemA
        rw [if_neg hmemA]
        apply pyRound_nonpos
        have : 25 * score_multiplier res0.total_points_a res0.total_points_b
            res0.sets_won_a res0.sets_won_b * (1 - eaOf ms.team_mmr_a ms.team_mmr_b) *
            (((k_for_player (getP db uid) : ℤ) : ℚ) / 25) ≥ 0 := by
          apply mul_nonneg (mul_nonneg (by linarith) (by linarith)) hkp
        linarith [this]
    · intro hwin
      simp only at hwin
      rw [hwin]
      have hne : (Team.B = Team.A) = False := by simp
      simp only [hne, if_false]
      constructor
      · intro hmemA
        rw [if_pos hmemA]
        apply pyRound_nonpos
        have : (0:ℚ) ≤ 25 * score_multiplier res0.total_points_a res0.total_points_b
            res0.sets_won_a res0.sets_won_b * (eaOf ms.team_mmr_a ms.team_mmr_b) := by
          apply mul_nonneg (by linarith) (by linarith)
        nlinarith [hkp, this]
      · intro hmemA
        rw [if_neg hmemA]
        apply pyRound_nonneg
        have : (0:ℚ) ≤ 25 * score_multiplier res0.total_points_a res0.total_points_b
            res0.sets_won_a res0.sets_won_b * (eaOf ms.team_mmr_a ms.team_mmr_b) := by
          apply mul_nonneg (by linarith) (by linarith)
        nlinarith [hkp, this]

/-- A post-calibration player in a live match (C4 scenarios). -/
def mk4 (i : ℕ) (mmr : ℤ) : ℕ × Player :=
  (i, { id := i, mmr := mmr, status := Status.playing, calib_played := 10 })

/-- A lopsided live match: team ratings 1400 vs 600. -/
def dbC4 : Db :=
  { players := [mk4 10 1600, mk4 11 1200, mk4 12 700, mk4 13 500] }

/-- The live match of `dbC4`; `(rb - ra)/400 = -2`, so the code's expected
score is exactly `elo_expected_zint (-2) = 100/101`. -/
def msC4 : MatchState := ⟨77, 1, 200, 260, [10, 11], [12, 13], 1400, 600⟩

/-- C4 counterexample: when the favourite wins 21-19, every rounded delta is
zero — the settlement applies a no-op delta to all four participants,
contradicting the claimed minimum magnitude of 1. -/
theorem C4_claim_false_zero_delta :
    ∃ db2 res, apply_match_results (fun _ _ => elo_expected_zint (-2)) dbC4 msC4
        [some (some 21, some 19)] = some (db2, res) ∧
      res.winner = Team.A ∧ res.mmr_changes = [(10, 0), (11, 0), (12, 0), (13, 0)] := by
  have hw : winner_from_sets [some (some 21, some 19)]
      dbC4.scoring.bo dbC4.scoring.points dbC4.scoring.cap =
      some ⟨1, 0, 21, 19, Team.A, [(21, 19)]⟩ := by decide
  cases happly : apply_match_results (fun _ _ => elo_expected_zint (-2)) dbC4 msC4
      [some (some 21, some 19)] with
  | none =>
    exfalso
    unfold apply_match_results at happly
    rw [hw] at happly
    simp at happly
  | some pr =>
    obtain ⟨db2, res⟩ := pr
    have happly2 := happly
    unfold apply_match_results at happly2
    rw [hw] at happly2
    simp only [Option.some.injEq, Prod.mk.injEq] at happly2
    obtain ⟨-, hres⟩ := happly2
    refine ⟨db2, res, rfl, ?_, ?_⟩
    · rw [← hres]
    · rw [← hres]
      have hk10 : k_for_player (getP dbC4 10) = 25 := by decide
      have hk11 : k_for_player (getP dbC4 11) = 25 := by decide
      have hk12 : k_for_player (getP dbC4 12) = 25 := by decide
      have hk13 : k_for_player (getP dbC4 13) = 25 := by decide
      have hval : 25 * score_multiplier 21 19 1 0 * ((1:ℚ) - elo_expected_zint (-2)) = 30/101 := by
        norm_num [score_multiplier, elo_expected_zint, min_def, max_def, abs]
      simp only [msC4, List.cons_append, List.nil_append, List.map_cons, List.map_nil,
        List.mem_cons, List.not_mem_nil, or_false]
      norm_num [hk10, hk11, hk12, hk13]
      rw [hval]
      have hz : pyRound (30/101) = 0 := pyRound_eq_zero (by norm_num) (by norm_num)
      have hzn : pyRound (-(30/101) : ℚ) = 0 := by rw [pyRound_neg, hz]; rfl
      simp [hz, hzn]

/-- Four equal ranked players for the C4 witness. -/
def dbC4w : Db := { players := [mk4 30 1000, mk4 31 1000, mk4 32 1000, mk4 33 1000] }

/-- The live match of `dbC4w`. -/
def msC4w : MatchState := ⟨8, 1, 0, 60, [30, 31], [32, 33], 1000, 1000⟩

/-- Witness for C4 (amended) at a concrete 21-15 settlement. -/
theorem C4_delta_signs_witness :
    ∃ db2 res, apply_match_results (fun _ _ => (1/2 : ℚ)) dbC4w msC4w
        [some (some 21, some 15)] = some (db2, res) ∧
      ∀ uc ∈ res.mmr_changes, res.winner = Team.A → uc.1 ∈ msC4w.team_a_ids → 0 ≤ uc.2 := by
  cases happly : apply_match_results (fun _ _ => (1/2 : ℚ)) dbC4w msC4w
      [some (some 21, some 15)] with
  | none =>
    exfalso
    unfold apply_match_results at happly
    have hw : winner_from_sets [some (some 21, some 15)]
        dbC4w.scoring.bo dbC4w.scoring.points dbC4w.scoring.cap =
        some ⟨1, 0, 21, 15, Team.A, [(21, 15)]⟩ := by decide
    rw [hw] at happly
    simp at happly
  | some pr =>
    obtain ⟨db2, res⟩ := pr
    have hmain := C4_delta_signs (fun _ _ => (1/2 : ℚ)) dbC4w msC4w
      [some (some 21, some 15)] db2 res happly (by norm_num) (by norm_num)
    exact ⟨db2, res, rfl, fun uc hm hw hA => ((hmain uc hm).1 hw).1 hA⟩

/-- A fold whose steps preserve a projection preserves it overall. -/
theorem foldl_preserve {β α γ : Type} (f : β → α → β) (g : β → γ)
    (h : ∀ b a, g (f b a) = g b) : ∀ (l : List α) (b : β), g (l.foldl f b) = g b := by
  intro l
  induction l with
  | nil => intro b; rfl
  | cons a l ih => intro b; rw [List.foldl_cons, ih, h]

/-- Looking a player up after a `setP` in-place mutation. -/
theorem alookup_setP (d : Db) (u k : ℕ) (f : Player → Player) :
    alookup k (setP d u f).players =
      (alookup k d.players).map (fun p => if k = u then f p else p) :=
  alookup_map_update d.players k u f

/-- `update_present` leaves other players' bindings unchanged. -/
theorem alookup_update_present_other (f : Player → Player) (d : Db) (q pid : ℕ)
    (hq : pid ≠ q) : alookup pid (update_present f d q).players = alookup pid d.players := by
  unfold update_present
  cases halo : alookup q d.players with
  | none => rfl
  | some p =>
    show alookup pid (setP d q f).players = alookup pid d.players
    rw [alookup_setP]
    cases h2 : alookup pid d.players with
    | none => rfl
    | some p0 => simp [if_neg hq]

/-- `update_present` maps the target player's binding (no-op when absent). -/
theorem alookup_update_present_self (f : Player → Player) (d : Db) (pid : ℕ) :
    alookup pid (update_present f d pid).players = (alookup pid d.players).map f := by
  unfold update_present
  cases halo : alookup pid d.players with
  | none => exact halo
  | some p =>
    show alookup pid (setP d pid f).players = Option.map f (some p)
    rw [alookup_setP, halo]
    simp

/-- An idempotent per-player update, once applied, survives the rest of the
loop. -/
theorem update_fold_preserve (f : Player → Player) (hidem : ∀ p, f (f p) = f p)
    (L : List ℕ) (pid : ℕ) (v : Option Player) :
    ∀ (d : Db), alookup pid d.players = v.map f →
      alookup pid ((L.foldl (update_present f) d).players) = v.map f := by
  induction L with
  | nil => intro d hd; exact hd
  | cons q L ih =>
    intro d hd
    rw [List.foldl_cons]
    apply ih
    by_cases hq : pid = q
    · subst hq
      rw [alookup_update_present_self, hd]
      cases v with
      | none => rfl
      | some p0 =>
        simp only [Option.map_some']
        rw [hidem]
    · rw [alookup_update_present_other f d q pid hq]
      exact hd

/-- After the per-participant loop, every listed player's binding has been
mapped (for an idempotent update). -/
theorem update_fold_lookup (f : Player → Player) (hidem : ∀ p, f (f p) = f p)
    (L : List ℕ) (pid : ℕ) (hmem : pid ∈ L) :
    ∀ (db : Db), alookup pid ((L.foldl (update_present f) db).players) =
      (alookup pid db.players).map f := by
  induction L with
  | nil => cases hmem
  | cons q L ih =>
    intro db
    rw [List.foldl_cons]
    by_cases hq : pid = q
    · subst hq
      apply update_fold_preserve f hidem L pid (alookup pid db.players)
      exact alookup_update_present_self f db pid
    · have hmem2 : pid ∈ L := by
        rcases List.mem_cons.mp hmem with h | h
        · exact absurd h hq
        · exact h
      rw [show update_present f db q = (update_present f db q) from rfl] at *
      have := ih hmem2 (update_present f db q)
      rw [this, alookup_update_present_other f db q pid hq]

/-- `update_present` only touches `players`. -/
theorem update_present_field {γ : Type} (f : Player → Player) (g : Db → γ)
    (hg : ∀ (d : Db) (h : List (ℕ × Player)), g { d with players := h } = g d)
    (d : Db) (q : ℕ) : g (update_present f d q) = g d := by
  unfold update_present
  cases alookup q d.players with
  | none => rfl
  | some p => exact hg d _

/-- With no active session, `_maybe_run_automatch` does nothing. -/
theorem maybe_run_automatch_inactive (db : Db) (now : ℚ) (noise : ℕ → ℕ → ℕ → ℚ)
    (mids : ℕ → ℕ) (h : db.is_session_active = false) :
    maybe_run_automatch db now noise mids = (db, false) := by
  unfold maybe_run_automatch
  rw [h]
  simp

theorem update_fold_session (f : Player → Player) (L : List ℕ) (d : Db) :
    (L.foldl (update_present f) d).is_session_active = d.is_session_active :=
  foldl_preserve (update_present f) (fun d => d.is_session_active)
    (fun b a => update_present_field f (fun d => d.is_session_active) (fun _ _ => rfl) b a) L d

theorem update_fold_avoid (f : Player → Player) (L : List ℕ) (d : Db) :
    (L.foldl (update_present f) d).avoid_4 = d.avoid_4 :=
  foldl_preserve (update_present f) (fun d => d.avoid_4)
    (fun b a => update_present_field f (fun d => d.avoid_4) (fun _ _ => rfl) b a) L d

theorem update_fold_courts (f : Player → Player) (L : List ℕ) (d : Db) :
    (L.foldl (update_present f) d).courts = d.courts :=
  foldl_preserve (update_present f) (fun d => d.courts)
    (fun b a => update_present_field f (fun d => d.courts) (fun _ _ => rfl) b a) L d

/-- C2 (amended): a successful cancellation sets every participant's status
back to queued and their queue-since timestamp to the cancellation time (the
pre-match value is overwritten, not restored - wait time is reset), clears
their cooldown, records a cancelled `avoid_4` entry, and empties the court.
(Session inactive keeps the trailing automatch pass out of the picture.) -/
theorem C2_cancel_requeues_at_now (db : Db) (uid cid : ℕ) (t1 now : ℚ)
    (noise : ℕ → ℕ → ℕ → ℚ) (mids : ℕ → ℕ) (state : MatchState)
    (hst : alookup cid db.courts = some (some state))
    (hauth : uid = SUPER_ADMIN_ID ∨ uid ∈ db.mod_ids ∨
      uid ∈ state.team_a_ids ∨ uid ∈ state.team_b_ids)
    (hsess : db.is_session_active = false) :
    ∃ db2, cancel_match db uid cid t1 now noise mids = some (db2, false) ∧
      (∀ pid ∈ state.team_a_ids ++ state.team_b_ids,
        alookup pid db2.players = (alookup pid db.players).map
          (fun p => { p with status := Status.queue, queue_join_ts := now,
                             cooldown_until := 0 })) ∧
      alookup cid db2.courts = some none ∧
      db2.avoid_4 = db.avoid_4 ++
        [⟨group4_sig (state.team_a_ids ++ state.team_b_ids), t1⟩] := by
  unfold cancel_match
  simp only [hst]
  rw [if_pos hauth]
  refine ⟨_, congrArg some (maybe_run_automatch_inactive _ now noise mids ?hs),
    ?p1, ?p2, ?p3⟩
  case hs =>
    show (List.foldl _ _ _ : Db).is_session_active = false
    rw [update_fold_session]
    exact hsess
  case p1 =>
    intro pid hmem
    show alookup pid (List.foldl _ _ _ : Db).players = _
    exact update_fold_lookup
      (fun p => { p with status := Status.queue, queue_join_ts := now, cooldown_until := 0 })
      (fun p => rfl) _ pid hmem _
  case p2 => exact alookup_assocSet_self _ _ _
  case p3 =>
    show (List.foldl _ _ _ : Db).avoid_4 = _
    rw [update_fold_avoid]

/-- The all-zero noise oracle (one admissible draw of `random.uniform`). -/
def noise0 : ℕ → ℕ → ℕ → ℚ := fun _ _ _ => 0

/-- A fixed match-id supply. -/
def mids0 : ℕ → ℕ := fun _ => 0

/-- A live match whose participants have pre-match queue timestamps
100..130; the session is inactive. -/
def dbC2 : Db :=
  { players := [
      (10, { id := 10, mmr := 1000, status := Status.playing, queue_join_ts := 100, calib_played := 10 }),
      (11, { id := 11, mmr := 1000, status := Status.playing, queue_join_ts := 110, calib_played := 10 }),
      (12, { id := 12, mmr := 1000, status := Status.playing, queue_join_ts := 120, calib_played := 10 }),
      (13, { id := 13, mmr := 1000, status := Status.playing, queue_join_ts := 130, calib_played := 10 })],
    courts := [(1, some ⟨77, 1, 200, 260, [10, 11], [12, 13], 1000, 1000⟩)],
    is_session_active := false }

/-- The live match of `dbC2`. -/
def msC2 : MatchState := ⟨77, 1, 200, 260, [10, 11], [12, 13], 1000, 1000⟩

/-- C2 counterexample: player 10 entered the queue at time 100; after
cancelling at time 1000 their queue-since is 1000, not the pre-match value
100 - cancellation loses the accumulated wait time. -/
theorem C2_claim_false_queue_since :
    (getP dbC2 10).queue_join_ts = 100 ∧
    ((cancel_match dbC2 10 1 999 1000 noise0 mids0).map
      (fun r => (getP r.1 10).queue_join_ts)) = some 1000 ∧
    (100 : ℚ) ≠ 1000 := by
  refine ⟨rfl, ?_, by norm_num⟩
  unfold cancel_match
  have hst : alookup 1 dbC2.courts = some (some msC2) := rfl
  simp only [hst]
  rw [if_pos (show (10 : ℕ) = SUPER_ADMIN_ID ∨ (10:ℕ) ∈ dbC2.mod_ids ∨
    (10:ℕ) ∈ msC2.team_a_ids ∨ (10:ℕ) ∈ msC2.team_b_ids by right; right; left; decide)]
  rw [maybe_run_automatch_inactive _ 1000 noise0 mids0
    (by show (List.foldl _ _ _ : Db).is_session_active = false
        rw [update_fold_session]
        rfl)]
  simp only [Option.map_some']
  show some ((getP _ 10).queue_join_ts) = some 1000
  unfold getP
  rw [update_fold_lookup
      (fun p => { p with status := Status.queue, queue_join_ts := (1000:ℚ), cooldown_until := 0 })
      (fun p => rfl) (msC2.team_a_ids ++ msC2.team_b_ids) 10 (by decide)]
  rfl

/-- Witness for C2 (amended) on the concrete cancelled match. -/
theorem C2_cancel_requeues_at_now_witness :
    ∃ db2, cancel_match dbC2 10 1 999 1000 noise0 mids0 = some (db2, false) ∧
      (getP db2 11).queue_join_ts = 1000 ∧ (getP db2 11).status = Status.queue ∧
      alookup 1 db2.courts = some none := by
  obtain ⟨db2, heq, hpl, hct, -⟩ := C2_cancel_requeues_at_now dbC2 10 1 999 1000 noise0 mids0
    msC2 rfl (by right; right; left; decide) rfl
  have h11 := hpl 11 (by decide)
  refine ⟨db2, heq, ?_, ?_, hct⟩
  · unfold getP
    rw [h11]
    rfl
  · unfold getP
    rw [h11]
    rfl

/-- The Diversity Ledger part of the state. -/
def ledger_state (d : Db) :
    List ((ℕ × ℕ) × DivEntry) × List ((ℕ × ℕ) × DivEntry) × List AvoidEntry :=
  (d.recent_teammates, d.recent_opponents, d.avoid_4)

theorem foldl_setP_proj {α γ : Type} (g : Db → γ)
    (hg : ∀ (d : Db) (pl : List (ℕ × Player)), g { d with players := pl } = g d)
    (L : List α) (k : α → ℕ) (fp : α → Player → Player) (d : Db) :
    g (L.foldl (fun d a => setP d (k a) (fp a)) d) = g d :=
  foldl_preserve _ g (fun b a => hg b _) L d

theorem recompute_avg_proj {γ : Type} (g : Db → γ)
    (hg : ∀ (d : Db) (n : ℤ), g { d with avg_match_minutes := n } = g d) (d : Db) :
    g (recompute_avg_match_minutes d).1 = g d := by
  unfold recompute_avg_match_minutes
  dsimp only
  split_ifs <;> exact hg d _

theorem apply_proj {γ : Type} (g : Db → γ)
    (hg : ∀ (d : Db) (pl : List (ℕ × Player)), g { d with players := pl } = g d)
    (eaOf : ℚ → ℚ → ℚ) (db : Db) (ms : MatchState)
    (ss : List (Option (Option ℤ × Option ℤ))) (db2 : Db) (res : ApplyRes)
    (h : apply_match_results eaOf db ms ss = some (db2, res)) : g db2 = g db := by
  unfold apply_match_results at h
  cases hw : winner_from_sets ss db.scoring.bo db.scoring.points db.scoring.cap with
  | none => rw [hw] at h; simp at h
  | some res0 =>
    rw [hw] at h
    simp only [Option.some.injEq, Prod.mk.injEq] at h
    obtain ⟨hdb, -⟩ := h
    rw [← hdb]
    rw [foldl_setP_proj g hg]
    rw [foldl_setP_proj g hg]
    rw [foldl_setP_proj g hg]
    refine foldl_preserve _ g (fun b a => ?_) _ _
    dsimp only
    split_ifs <;>
      rw [foldl_setP_proj g hg, foldl_setP_proj g hg, foldl_setP_proj g hg,
        foldl_setP_proj g hg]

theorem update_fold_proj {γ : Type} (g : Db → γ)
    (hg : ∀ (d : Db) (pl : List (ℕ × Player)), g { d with players := pl } = g d)
    (f : Player → Player) (L : List ℕ) (d : Db) :
    g (L.foldl (update_present f) d) = g d :=
  foldl_preserve (update_present f) g (fun b a => update_present_field f g hg b a) L d

theorem submit_preserves_ledger (eaOf : ℚ → ℚ → ℚ) (db : Db) (uid cid : ℕ)
    (ss : List (Option (Option ℤ × Option ℤ))) (now : ℚ)
    (noise : ℕ → ℕ → ℕ → ℚ) (mids : ℕ → ℕ) (out : SubmitOut)
    (hsess : db.is_session_active = false)
    (h : submit_match eaOf db uid cid ss now noise mids = some out) :
    out.db.recent_teammates = db.recent_teammates ∧
      out.db.recent_opponents = db.recent_opponents ∧
      out.db.avoid_4 = db.avoid_4 := by
  unfold submit_match at h
  cases hcrt : alookup cid db.courts with
  | none => rw [hcrt] at h; simp at h
  | some st? =>
    cases st? with
    | none => rw [hcrt] at h; simp at h
    | some state =>
      simp only [hcrt] at h
      split_ifs at h with hauth
      cases happ : apply_match_results eaOf db state ss with
      | none => rw [happ] at h; simp at h
      | some pr =>
        obtain ⟨db1, res⟩ := pr
        rw [happ] at h
        simp only [Option.some.injEq] at h
        rw [← h]
        have hs1 : db1.is_session_active = db.is_session_active :=
          apply_proj (fun d => d.is_session_active) (fun _ _ => rfl) _ _ _ _ _ _ happ
        have hrt1 : db1.recent_teammates = db.recent_teammates :=
          apply_proj (fun d => d.recent_teammates) (fun _ _ => rfl) _ _ _ _ _ _ happ
        have hro1 : db1.recent_opponents = db.recent_opponents :=
          apply_proj (fun d => d.recent_opponents) (fun _ _ => rfl) _ _ _ _ _ _ happ
        have hav1 : db1.avoid_4 = db.avoid_4 :=
          apply_proj (fun d => d.avoid_4) (fun _ _ => rfl) _ _ _ _ _ _ happ
        rw [maybe_run_automatch_inactive _ now noise mids
          (by show (List.foldl _ _ _ : Db).is_session_active = false
              rw [update_fold_session]
              rw [recompute_avg_proj (fun d => d.is_session_active) (fun _ _ => rfl)]
              show db1.is_session_active = false
              rw [hs1, hsess])]
        refine ⟨?_, ?_, ?_⟩
        · show (List.foldl _ _ _ : Db).recent_teammates = _
          rw [update_fold_proj (fun d => d.recent_teammates) (fun _ _ => rfl)]
          rw [recompute_avg_proj (fun d => d.recent_teammates) (fun _ _ => rfl)]
          exact hrt1
        · show (List.foldl _ _ _ : Db).recent_opponents = _
          rw [update_fold_proj (fun d => d.recent_opponents) (fun _ _ => rfl)]
          rw [recompute_avg_proj (fun d => d.recent_opponents) (fun _ _ => rfl)]
          exact hro1
        · show (List.foldl _ _ _ : Db).avoid_4 = _
          rw [update_fold_proj (fun d => d.avoid_4) (fun _ _ => rfl)]
          rw [recompute_avg_proj (fun d => d.avoid_4) (fun _ _ => rfl)]
          exact hav1

theorem touch_participant_ledger (d : Db) (uid : ℕ) :
    ledger_state (touch_participant d uid) = ledger_state d := by
  unfold touch_participant
  split
  · rfl
  · split
    · rfl
    · split_ifs <;> rfl

theorem add_event_match_ledger (d : Db) (mid : ℕ) :
    ledger_state (add_event_match d mid) = ledger_state d := by
  unfold add_event_match
  split
  · rfl
  · split
    · rfl
    · rfl

theorem div_upsert_mem_self (st : List ((ℕ × ℕ) × DivEntry)) (k : ℕ × ℕ) (now : ℚ) :
    ∃ e, (k, e) ∈ div_upsert st k now ∧ e.ts = now :=
  ⟨⟨now, ((alookup k st).getD ⟨0, 0⟩).count + 1⟩, mem_assocSet_self _ _ _, rfl⟩

theorem div_upsert_preserve (st : List ((ℕ × ℕ) × DivEntry)) (k k' : ℕ × ℕ) (now : ℚ)
    (h : ∃ e, (k, e) ∈ st ∧ e.ts = now) :
    ∃ e, (k, e) ∈ div_upsert st k' now ∧ e.ts = now := by
  obtain ⟨e, hmem, hts⟩ := h
  exact assocSet_preserve (Q := fun e => e.ts = now) st k k' e
    ⟨now, ((alookup k' st).getD ⟨0, 0⟩).count + 1⟩ hmem hts rfl

theorem create_fold_ledger (f : Player → Player) (L : List ℕ) (d : Db) :
    ledger_state (L.foldl (fun d uid => touch_participant (setP d uid f) uid) d) =
      ledger_state d := by
  refine foldl_preserve _ ledger_state (fun b a => ?_) L d
  rw [touch_participant_ledger]
  rfl

theorem div_fold_preserve (L : List (ℕ × ℕ)) (k : ℕ × ℕ) (now : ℚ) :
    ∀ st, (∃ e, (k, e) ∈ st ∧ e.ts = now) →
      ∃ e, (k, e) ∈ L.foldl (fun st uv => div_upsert st (pair_key uv.1 uv.2) now) st ∧
        e.ts = now := by
  induction L with
  | nil => intro st h; exact h
  | cons x L ih =>
    intro st h
    rw [List.foldl_cons]
    exact ih _ (div_upsert_preserve st k _ now h)

theorem div_fold_mem (L : List (ℕ × ℕ)) (uv : ℕ × ℕ) (now : ℚ) (hmem : uv ∈ L) :
    ∀ st, ∃ e, (pair_key uv.1 uv.2, e) ∈
        L.foldl (fun st uv => div_upsert st (pair_key uv.1 uv.2) now) st ∧ e.ts = now := by
  induction L with
  | nil => cases hmem
  | cons x L ih =>
    intro st
    rw [List.foldl_cons]
    rcases List.mem_cons.mp hmem with rfl | h
    · exact div_fold_preserve L _ now _ (div_upsert_mem_self st _ now)
    · exact ih h _

/-- C9 (amended): the Diversity Ledger entries for a match's teammate pairs,
opponent pairs and exact 4-group are written when the match is created
(`_create_match_on_court` calls `_update_diversity_after_match`), stamped with
the creation time; a successful settlement (`submit_match`) itself writes no
ledger entries at all — the recent-teammate store, recent-opponent store and
avoid-4 list of the resulting state are exactly those of the pre-settlement
state. -/
theorem C9_ledger_written_at_creation (eaOf : ℚ → ℚ → ℚ) (db : Db)
    (cid uid mid : ℕ) (tA tB : List ℕ) (now t2 : ℚ)
    (ss : List (Option (Option ℤ × Option ℤ)))
    (noise : ℕ → ℕ → ℕ → ℚ) (mids : ℕ → ℕ)
    (hsess : db.is_session_active = false) :
    (∀ uv ∈ pairs_upper tA ++ pairs_upper tB,
        ∃ e, (pair_key uv.1 uv.2, e) ∈
          (create_match_on_court db cid tA tB now mid).1.recent_teammates ∧ e.ts = now) ∧
    (∀ uv ∈ cross_pairs tA tB,
        ∃ e, (pair_key uv.1 uv.2, e) ∈
          (create_match_on_court db cid tA tB now mid).1.recent_opponents ∧ e.ts = now) ∧
    (create_match_on_court db cid tA tB now mid).1.avoid_4 =
      db.avoid_4 ++ [⟨group4_sig (tA ++ tB), now⟩] ∧
    ((submit_match eaOf db uid cid ss t2 noise mids).map
        (fun out => ledger_state out.db)).getD (ledger_state db) = ledger_state db := by
  refine ⟨?_, ?_, ?_, ?_⟩
  · intro uv huv
    exact div_fold_mem _ uv now huv _
  · intro uv huv
    exact div_fold_mem _ uv now huv _
  · show (update_diversity_after_match _ tA tB now).avoid_4 = _
    unfold update_diversity_after_match
    have h1 : (add_event_match ((tA ++ tB).foldl
        (fun d uid => touch_participant
          (setP d uid (fun p => { p with status := Status.playing })) uid) db) mid).avoid_4 =
        ((tA ++ tB).foldl
          (fun d uid => touch_participant
            (setP d uid (fun p => { p with status := Status.playing })) uid) db).avoid_4 :=
      congrArg (fun t => t.2.2) (add_event_match_ledger _ mid)
    have h2 : ((tA ++ tB).foldl
        (fun d uid => touch_participant
          (setP d uid (fun p => { p with status := Status.playing })) uid) db).avoid_4 =
        db.avoid_4 :=
      congrArg (fun t => t.2.2)
        (create_fold_ledger (fun p => { p with status := Status.playing }) (tA ++ tB) db)
    show (add_event_match _ mid).avoid_4 ++ _ = _
    rw [h1, h2]
  · cases hsub : submit_match eaOf db uid cid ss t2 noise mids with
    | none => rfl
    | some out =>
      obtain ⟨hrt, hro, hav⟩ :=
        submit_preserves_ledger eaOf db uid cid ss t2 noise mids out hsess hsub
      simp only [Option.map_some', Option.getD_some]
      unfold ledger_state
      rw [hrt, hro, hav]

def msC9x : MatchState := ⟨9, 1, 0, 60, [40, 41], [42, 43], 1000, 1000⟩

def dbC9 : Db :=
  { players := [mkRanked 40 1000, mkRanked 41 1000, mkRanked 42 1000, mkRanked 43 1000],
    courts := [(1, some msC9x)] }

/-- C9 is false as stated: the settlement operation writes no Diversity Ledger
entries.  Concretely, with empty ledger stores and a live 2v2 on court 1, a
successful 21-15 settlement leaves all three ledger stores empty. -/
theorem C9_claim_false_no_ledger_on_settle :
    dbC9.recent_teammates = [] ∧ dbC9.recent_opponents = [] ∧ dbC9.avoid_4 = [] ∧
    ((submit_match eaHalf dbC9 40 1 [some (some 21, some 15)] 100 noise0 mids0).map
      (fun out => (out.db.recent_teammates, out.db.recent_opponents, out.db.avoid_4))) =
      some ([], [], []) := by
  refine ⟨rfl, rfl, rfl, ?_⟩
  cases hsub : submit_match eaHalf dbC9 40 1 [some (some 21, some 15)] 100 noise0 mids0 with
  | none =>
    exfalso
    unfold submit_match at hsub
    simp only [show alookup 1 dbC9.courts = some (some msC9x) from rfl] at hsub
    rw [if_pos (show (40:ℕ) = SUPER_ADMIN_ID ∨ (40:ℕ) ∈ dbC9.mod_ids ∨
      (40:ℕ) ∈ msC9x.team_a_ids ∨ (40:ℕ) ∈ msC9x.team_b_ids by decide)] at hsub
    cases happ : apply_match_results eaHalf dbC9 msC9x [some (some 21, some 15)] with
    | none =>
      unfold apply_match_results at happ
      have hw : winner_from_sets [some (some 21, some 15)]
          dbC9.scoring.bo dbC9.scoring.points dbC9.scoring.cap =
          some ⟨1, 0, 21, 15, Team.A, [(21, 15)]⟩ := by decide
      rw [hw] at happ
      simp at happ
    | some pr =>
      rw [happ] at hsub
      simp at hsub
  | some out =>
    obtain ⟨hrt, hro, hav⟩ := submit_preserves_ledger eaHalf dbC9 40 1
      [some (some 21, some 15)] 100 noise0 mids0 out rfl hsub
    simp only [Option.map_some']
    rw [hrt, hro, hav]
    rfl

/-- Witness for C9: the amended theorem instantiated at a concrete state with
teams `[40, 41]` vs `[42, 43]`. -/
theorem C9_ledger_written_at_creation_witness :
    dbC9.is_session_active = false ∧
    ((∀ uv ∈ pairs_upper [40, 41] ++ pairs_upper [42, 43],
        ∃ e, (pair_key uv.1 uv.2, e) ∈
          (create_match_on_court dbC9 1 [40, 41] [42, 43] 50 9).1.recent_teammates ∧
          e.ts = 50) ∧
     (∀ uv ∈ cross_pairs [40, 41] [42, 43],
        ∃ e, (pair_key uv.1 uv.2, e) ∈
          (create_match_on_court dbC9 1 [40, 41] [42, 43] 50 9).1.recent_opponents ∧
          e.ts = 50) ∧
     (create_match_on_court dbC9 1 [40, 41] [42, 43] 50 9).1.avoid_4 =
       dbC9.avoid_4 ++ [⟨group4_sig ([40, 41] ++ [42, 43]), 50⟩] ∧
     ((submit_match eaHalf dbC9 40 1 [some (some 21, some 15)] 100 noise0 mids0).map
        (fun out => ledger_state out.db)).getD (ledger_state dbC9) = ledger_state dbC9) :=
  ⟨rfl, C9_ledger_written_at_creation eaHalf dbC9 1 40 9 [40, 41] [42, 43] 50 100
    [some (some 21, some 15)] noise0 mids0 rfl⟩

theorem foldl_option_inv_mem {α β : Type} (P : β → Prop) :
    ∀ (L : List α) (f : Option β → α → Option β),
      (∀ acc a, a ∈ L → (∀ b, acc = some b → P b) → ∀ b, f acc a = some b → P b) →
      ∀ (acc : Option β), (∀ b, acc = some b → P b) →
        ∀ b, L.foldl f acc = some b → P b := by
  intro L
  induction L with
  | nil => intro f hstep acc hacc b hb; exact hacc b hb
  | cons x L ih =>
    intro f hstep acc hacc b hb
    rw [List.foldl_cons] at hb
    exact ih f (fun acc a ha => hstep acc a (List.mem_cons_of_mem _ ha)) (f acc x)
      (hstep acc x (List.mem_cons_self _ _) hacc) b hb

theorem snd_mem_enum {α : Type} (L : List α) (x : ℕ × α) (h : x ∈ L.enum) : x.2 ∈ L :=
  List.enum_map_snd L ▸ List.mem_map_of_mem Prod.snd h

theorem best_split_sound (db : Db) (four : List ℕ) (now : ℚ) (ns : ℕ → ℚ)
    (tA tB : List ℕ) (sc : ℚ)
    (h : best_split_for_four db four now ns = some (tA, tB, sc)) :
    separates_pair (get_partner_pairs db four) tA tB = false ∧
    (∀ x, x ∈ four ↔ (x ∈ tA ∨ x ∈ tB)) ∧
    score_group4_diversity db four now ≠ none := by
  rcases four with _ | ⟨a0, _ | ⟨a1, _ | ⟨a2, _ | ⟨a3, _ | ⟨a4, t⟩⟩⟩⟩⟩
  case nil => exact absurd h (by simp [best_split_for_four])
  case cons.nil => exact absurd h (by simp [best_split_for_four])
  case cons.cons.nil => exact absurd h (by simp [best_split_for_four])
  case cons.cons.cons.nil => exact absurd h (by simp [best_split_for_four])
  case cons.cons.cons.cons.cons => exact absurd h (by simp [best_split_for_four])
  simp only [best_split_for_four] at h
  cases hg : score_group4_diversity db [a0, a1, a2, a3] now with
  | none => rw [hg] at h; exact absurd h (by simp)
  | some g4 =>
    simp only [hg] at h
    have hP := foldl_option_inv_mem
      (fun s : List ℕ × List ℕ × ℚ =>
        (s.1, s.2.1) ∈ [([a0, a1], [a2, a3]), ([a0, a2], [a1, a3]), ([a0, a3], [a1, a2])] ∧
        separates_pair (get_partner_pairs db [a0, a1, a2, a3]) s.1 s.2.1 = false)
      _ _ ?hstep none (by intro b hb; cases hb) (tA, tB, sc) h
    case hstep =>
      intro acc iab hmem hacc b hfb
      split_ifs at hfb with hsep
      · exact hacc b hfb
      · have hsep2 : separates_pair (get_partner_pairs db [a0, a1, a2, a3]) iab.2.1 iab.2.2
            = false := by
          exact Bool.eq_false_iff.mpr hsep
        have hmem2 : iab.2 ∈ [([a0, a1], [a2, a3]), ([a0, a2], [a1, a3]), ([a0, a3], [a1, a2])] :=
          snd_mem_enum _ iab hmem
        cases acc with
        | none =>
          simp only [Option.some.injEq] at hfb
          rw [← hfb]
          exact ⟨hmem2, hsep2⟩
        | some b0 =>
          simp only [] at hfb
          split_ifs at hfb
          · simp only [Option.some.injEq] at hfb
            rw [← hfb]
            exact ⟨hmem2, hsep2⟩
          · exact hacc b hfb
    obtain ⟨hmem, hsep⟩ := hP
    refine ⟨hsep, ?_, by simp⟩
    simp only [List.mem_cons, List.not_mem_nil, or_false, Prod.mk.injEq] at hmem
    rcases hmem with ⟨h1, h2⟩ | ⟨h1, h2⟩ | ⟨h1, h2⟩ <;>
      · subst h1
        subst h2
        intro x
        simp only [List.mem_cons, List.not_mem_nil, or_false]
        tauto

/-- The candidate prefix the selector enumerates: the first 14 pool ids. -/
def selector_candidates (db : Db) (now : ℚ) : List ℕ :=
  ((build_candidate_pool (pair_units db (eligible_players db now) now) now).2).take 14

theorem choose_four_sound (db : Db) (now : ℚ) (noise : ℕ → ℕ → ℚ) (pick : Pick)
    (h : (choose_four_for_court db now noise).1 = some pick) :
    pick.combo ∈ combinations 4 (selector_candidates db now) ∧
    ∃ i, best_split_for_four (cleanup_diversity db now) pick.combo now (noise i) =
      some (pick.teamA, pick.teamB, pick.score) := by
  unfold choose_four_for_court at h
  simp only [] at h
  split_ifs at h with h1 h2 h3
  refine foldl_option_inv_mem
    (fun pk : Pick => pk.combo ∈ combinations 4 (selector_candidates db now) ∧
      ∃ i, best_split_for_four (cleanup_diversity db now) pk.combo now (noise i) =
        some (pk.teamA, pk.teamB, pk.score))
    _ _ ?hstep none (by intro b hb; cases hb) pick h
  case hstep =>
    intro acc ic hmem hacc b hfb
    split_ifs at hfb with hpr
    case neg => exact hacc b hfb
    case pos =>
      revert hfb
      cases hs : best_split_for_four (cleanup_diversity db now) ic.2 now (noise ic.1) with
      | none => intro hfb; exact hacc b hfb
      | some s =>
        intro hfb
        simp only [] at hfb
        split_ifs at hfb with hskill
        case pos => exact hacc b hfb
        case neg =>
          cases acc with
          | none =>
            simp only [Option.some.injEq] at hfb
            rw [← hfb]
            exact ⟨snd_mem_enum _ ic hmem, ic.1, hs⟩
          | some b0 =>
            simp only [] at hfb
            split_ifs at hfb
            case pos =>
              simp only [Option.some.injEq] at hfb
              rw [← hfb]
              exact ⟨snd_mem_enum _ ic hmem, ic.1, hs⟩
            case neg => exact hacc b hfb

theorem combinations_subset {α : Type} :
    ∀ (l : List α) (k : ℕ) (c : List α), c ∈ combinations k l → ∀ x ∈ c, x ∈ l := by
  intro l
  induction l with
  | nil =>
    intro k c hc x hx
    cases k with
    | zero =>
      simp only [combinations, List.mem_singleton] at hc
      subst hc
      cases hx
    | succ n => simp only [combinations, List.not_mem_nil] at hc
  | cons a l ih =>
    intro k c hc x hx
    cases k with
    | zero =>
      simp only [combinations, List.mem_singleton] at hc
      subst hc
      cases hx
    | succ n =>
      simp only [combinations, List.mem_append, List.mem_map] at hc
      rcases hc with ⟨c0, hc0, rfl⟩ | h2
      · rcases List.mem_cons.mp hx with rfl | hx0
        · exact List.mem_cons_self _ _
        · exact List.mem_cons_of_mem _ (ih n c0 hc0 x hx0)
      · exact List.mem_cons_of_mem _ (ih (n + 1) c h2 x hx)

/-- C3 (amended): whenever the selector forms a match, the four chosen players
are one of the 4-subsets of the candidate prefix (the first 14 pool ids), so
every chosen player sits in that prefix — but no member of the oldest-priority
unit is forced into the pick. -/
theorem C3_pick_from_candidate_prefix (db : Db) (now : ℚ) (noise : ℕ → ℕ → ℚ) (pick : Pick)
    (h : (choose_four_for_court db now noise).1 = some pick) :
    pick.combo ∈ combinations 4 (selector_candidates db now) ∧
    ∀ uid ∈ pick.combo, uid ∈ selector_candidates db now := by
  obtain ⟨hc, -⟩ := choose_four_sound db now noise pick h
  exact ⟨hc, combinations_subset _ 4 pick.combo hc⟩

/-- C6 (amended): the selector never returns a pick whose 4-group is
diversity-banned (`_score_group4_diversity` returning `None` makes every split
of that combination unusable), and there is no second, relaxed pass — a state
in which every combination is hard-banned yields no match at all. -/
theorem C6_no_hard_banned_pick (db : Db) (now : ℚ) (noise : ℕ → ℕ → ℚ) (pick : Pick)
    (h : (choose_four_for_court db now noise).1 = some pick) :
    score_group4_diversity (cleanup_diversity db now) pick.combo now ≠ none := by
  obtain ⟨-, i, hsplit⟩ := choose_four_sound db now noise pick h
  exact (best_split_sound _ pick.combo now (noise i) pick.teamA pick.teamB pick.score hsplit).2.2

/-- C7: a committed pair among the four selected players is never separated —
the split the selector returns puts both members on the same team. -/
theorem C7_committed_pair_same_team (db : Db) (now : ℚ) (noise : ℕ → ℕ → ℚ)
    (pick : Pick) (a b : ℕ) (pa pb : Player)
    (h : (choose_four_for_court db now noise).1 = some pick)
    (hpa : alookup a db.players = some pa) (hpaw : pa.paired_with = some b)
    (hpb : alookup b db.players = some pb) (hpbw : pb.paired_with = some a)
    (ha4 : a ∈ pick.combo) (hb4 : b ∈ pick.combo) :
    (a ∈ pick.teamA ∧ b ∈ pick.teamA) ∨ (a ∈ pick.teamB ∧ b ∈ pick.teamB) := by
  obtain ⟨hcombo, i, hsplit⟩ := choose_four_sound db now noise pick h
  obtain ⟨hsep, hpart, -⟩ := best_split_sound _ pick.combo now (noise i)
    pick.teamA pick.teamB pick.score hsplit
  have hmem : pair_key a b ∈ get_partner_pairs (cleanup_diversity db now) pick.combo := by
    unfold get_partner_pairs
    refine List.mem_filterMap.mpr ⟨a, ha4, ?_⟩
    simp only [show (cleanup_diversity db now).players = db.players from rfl, hpa, hpaw]
    rw [if_pos hb4]
  unfold separates_pair at hsep
  rw [List.any_eq_false] at hsep
  have hab := hsep _ hmem
  simp only [decide_eq_true_eq] at hab
  have ha' := (hpart a).mp ha4
  have hb' := (hpart b).mp hb4
  unfold pair_key at hab
  by_cases hle : a ≤ b
  · rw [if_pos hle] at hab
    tauto
  · rw [if_neg hle] at hab
    tauto

def noiseZ : ℕ → ℕ → ℚ := fun _ _ => 0

def pW1 : Player := { id := 1, mmr := 1000, status := Status.queue, queue_join_ts := 100, calib_played := 10, paired_with := some 2 }

def pW2 : Player := { id := 2, mmr := 1000, status := Status.queue, queue_join_ts := 110, calib_played := 10, paired_with := some 1 }

def pW3 : Player := { id := 3, mmr := 1000, status := Status.queue, queue_join_ts := 120, calib_played := 10 }

def pW4 : Player := { id := 4, mmr := 1000, status := Status.queue, queue_join_ts := 130, calib_played := 10 }

/-- A 4-player queue with a mutual committed pair `1`-`2`, for witnesses. -/
def dbW : Db := { players := [(1, pW1), (2, pW2), (3, pW3), (4, pW4)], is_session_active := true }

def pickW : Pick := ⟨[1, 2, 3, 4], [1, 2], [3, 4], -2695/3⟩

theorem hW_elig : eligible_players dbW 500 = [pW1, pW2, pW3, pW4] := by
  norm_num [eligible_players, dbW, List.insertionSort, List.orderedInsert,
    List.filter, pW1, pW2, pW3, pW4]

theorem hW_units : pair_units dbW [pW1, pW2, pW3, pW4] 500 =
    [⟨[pW1, pW2], 100, 2⟩, ⟨[pW3], 120, 1⟩, ⟨[pW4], 130, 1⟩] := by
  norm_num [pair_units, pair_units_go, dbW, List.insertionSort, List.orderedInsert,
    alookup, pW1, pW2, pW3, pW4, min_def]

theorem hW_pool :
    build_candidate_pool [⟨[pW1, pW2], 100, 2⟩, ⟨[pW3], 120, 1⟩, ⟨[pW4], 130, 1⟩] 500 =
    ([⟨[pW1, pW2], 100, 2⟩, ⟨[pW3], 120, 1⟩, ⟨[pW4], 130, 1⟩], [1, 2, 3, 4]) := by
  unfold build_candidate_pool
  rw [if_neg (by simp)]
  norm_num [build_pool_go, unit_wait, player_wait, listMaxQ,
    WAIT_WINDOW_SEC, WAIT_EXPAND_STEPS, PRIORITY_WAIT_BOOST, List.filter,
    pW1, pW2, pW3, pW4, max_def, min_def]

theorem hW_split : best_split_for_four dbW [1, 2, 3, 4] 500 (noiseZ 0) =
    some ([1, 2], [3, 4], -2695/3) := by
  norm_num [best_split_for_four, get_partner_pairs, separates_pair, skill_score,
    score_pair_diversity, score_group4_diversity, score_group4_go, group4_sig, pair_key,
    pairs_upper, cross_pairs, repeat_penalty, effective_mmr_for_matchmaking, is_unranked,
    getP, alookup, player_wait, listMaxZ, listMinZ, dbW, pW1, pW2, pW3, pW4, noiseZ,
    W_WAIT, ALPHA_DIFF, BETA_WITHIN, PRIORITY_WAIT_BOOST,
    List.insertionSort, List.orderedInsert, List.enum, List.enumFrom, max_def, min_def,
    List.filterMap]

theorem chooseW_eval : (choose_four_for_court dbW 500 noiseZ).1 = some pickW := by
  unfold choose_four_for_court
  simp only [hW_elig, hW_units, hW_pool,
    show cleanup_diversity dbW 500 = dbW from rfl]
  rw [if_neg (by norm_num)]
  rw [if_neg (by norm_num)]
  rw [if_neg (by norm_num)]
  simp only [show List.take 14 [1, 2, 3, 4] = [1, 2, 3, 4] from rfl,
    show combinations 4 [1, 2, 3, 4] = [[1, 2, 3, 4]] from rfl,
    List.enum, List.enumFrom, List.foldl_cons, List.foldl_nil]
  rw [if_neg (by simp [show paired_rule_ok dbW [1, 2, 3, 4] = true from by decide])]
  rw [hW_split]
  norm_num [pickW]

/-- Witness for C7: in `dbW` the mutual pair `1`-`2` is selected and kept on
the same team. -/
theorem C7_committed_pair_same_team_witness :
    (choose_four_for_court dbW 500 noiseZ).1 = some pickW ∧
    ((1 ∈ pickW.teamA ∧ 2 ∈ pickW.teamA) ∨ (1 ∈ pickW.teamB ∧ 2 ∈ pickW.teamB)) :=
  ⟨chooseW_eval,
    C7_committed_pair_same_team dbW 500 noiseZ pickW 1 2 pW1 pW2 chooseW_eval
      rfl rfl rfl rfl (by decide) (by decide)⟩

/-- Witness for C3 (amended): the `dbW` pick is one of the 4-subsets of the
candidate prefix. -/
theorem C3_pick_from_candidate_prefix_witness :
    (choose_four_for_court dbW 500 noiseZ).1 = some pickW ∧
    (pickW.combo ∈ combinations 4 (selector_candidates dbW 500) ∧
      ∀ uid ∈ pickW.combo, uid ∈ selector_candidates dbW 500) :=
  ⟨chooseW_eval, C3_pick_from_candidate_prefix dbW 500 noiseZ pickW chooseW_eval⟩

/-- Witness for C6 (amended): the `dbW` pick's 4-group is not hard-banned. -/
theorem C6_no_hard_banned_pick_witness :
    (choose_four_for_court dbW 500 noiseZ).1 = some pickW ∧
    score_group4_diversity (cleanup_diversity dbW 500) pickW.combo 500 ≠ none :=
  ⟨chooseW_eval, C6_no_hard_banned_pick dbW 500 noiseZ pickW chooseW_eval⟩

def pC31 : Player := { id := 1, mmr := 2000, status := Status.queue, queue_join_ts := 100, calib_played := 10 }

def pC32 : Player := { id := 2, mmr := 1000, status := Status.queue, queue_join_ts := 110, calib_played := 10 }

def pC33 : Player := { id := 3, mmr := 1000, status := Status.queue, queue_join_ts := 120, calib_played := 10 }

def pC34 : Player := { id := 4, mmr := 1000, status := Status.queue, queue_join_ts := 130, calib_played := 10 }

def pC35 : Player := { id := 5, mmr := 1000, status := Status.queue, queue_join_ts := 140, calib_played := 10 }

/-- Five solo players; the oldest (`1`) is a 2000-rated outlier. -/
def dbC3 : Db :=
  { players := [(1, pC31), (2, pC32), (3, pC33), (4, pC34), (5, pC35)],
    is_session_active := true }

def pickC3 : Pick := ⟨[2, 3, 4, 5], [2, 3], [4, 5], -875⟩

theorem hC3_elig : eligible_players dbC3 500 = [pC31, pC32, pC33, pC34, pC35] := by
  norm_num [eligible_players, dbC3, List.insertionSort, List.orderedInsert,
    List.filter, pC31, pC32, pC33, pC34, pC35]

theorem hC3_units : pair_units dbC3 [pC31, pC32, pC33, pC34, pC35] 500 =
    [⟨[pC31], 100, 1⟩, ⟨[pC32], 110, 1⟩, ⟨[pC33], 120, 1⟩, ⟨[pC34], 130, 1⟩,
      ⟨[pC35], 140, 1⟩] := by
  norm_num [pair_units, pair_units_go, dbC3, List.insertionSort, List.orderedInsert,
    alookup, pC31, pC32, pC33, pC34, pC35, min_def]

theorem hC3_pool :
    build_candidate_pool [⟨[pC31], 100, 1⟩, ⟨[pC32], 110, 1⟩, ⟨[pC33], 120, 1⟩,
      ⟨[pC34], 130, 1⟩, ⟨[pC35], 140, 1⟩] 500 =
    ([⟨[pC31], 100, 1⟩, ⟨[pC32], 110, 1⟩, ⟨[pC33], 120, 1⟩, ⟨[pC34], 130, 1⟩,
      ⟨[pC35], 140, 1⟩], [1, 2, 3, 4, 5]) := by
  unfold build_candidate_pool
  rw [if_neg (by simp)]
  norm_num [build_pool_go, unit_wait, player_wait, listMaxQ,
    WAIT_WINDOW_SEC, WAIT_EXPAND_STEPS, PRIORITY_WAIT_BOOST, List.filter,
    pC31, pC32, pC33, pC34, pC35, max_def, min_def]

theorem hC3_split1 : best_split_for_four dbC3 [1, 2, 3, 4] 500 (noiseZ 0) =
    some ([1, 2], [3, 4], 10205/3) := by
  norm_num [best_split_for_four, get_partner_pairs, separates_pair, skill_score,
    score_pair_diversity, score_group4_diversity, score_group4_go, group4_sig, pair_key,
    pairs_upper, cross_pairs, repeat_penalty, effective_mmr_for_matchmaking, is_unranked,
    getP, alookup, player_wait, listMaxZ, listMinZ, dbC3, pC31, pC32, pC33, pC34, pC35,
    noiseZ, W_WAIT, ALPHA_DIFF, BETA_WITHIN, PRIORITY_WAIT_BOOST,
    List.insertionSort, List.orderedInsert, List.enum, List.enumFrom, max_def, min_def,
    List.filterMap]

theorem hC3_split2 : best_split_for_four dbC3 [1, 2, 3, 5] 500 (noiseZ 1) =
    some ([1, 2], [3, 5], 6815/2) := by
  norm_num [best_split_for_four, get_partner_pairs, separates_pair, skill_score,
    score_pair_diversity, score_group4_diversity, score_group4_go, group4_sig, pair_key,
    pairs_upper, cross_pairs, repeat_penalty, effective_mmr_for_matchmaking, is_unranked,
    getP, alookup, player_wait, listMaxZ, listMinZ, dbC3, pC31, pC32, pC33, pC34, pC35,
    noiseZ, W_WAIT, ALPHA_DIFF, BETA_WITHIN, PRIORITY_WAIT_BOOST,
    List.insertionSort, List.orderedInsert, List.enum, List.enumFrom, max_def, min_def,
    List.filterMap]

theorem hC3_split3 : best_split_for_four dbC3 [1, 2, 4, 5] 500 (noiseZ 2) =
    some ([1, 2], [4, 5], 10240/3) := by
  norm_num [best_split_for_four, get_partner_pairs, separates_pair, skill_score,
    score_pair_diversity, score_group4_diversity, score_group4_go, group4_sig, pair_key,
    pairs_upper, cross_pairs, repeat_penalty, effective_mmr_for_matchmaking, is_unranked,
    getP, alookup, player_wait, listMaxZ, listMinZ, dbC3, pC31, pC32, pC33, pC34, pC35,
    noiseZ, W_WAIT, ALPHA_DIFF, BETA_WITHIN, PRIORITY_WAIT_BOOST,
    List.insertionSort, List.orderedInsert, List.enum, List.enumFrom, max_def, min_def,
    List.filterMap]

theorem hC3_split4 : best_split_for_four dbC3 [1, 3, 4, 5] 500 (noiseZ 3) =
    some ([1, 3], [4, 5], 20515/6) := by
  norm_num [best_split_for_four, get_partner_pairs, separates_pair, skill_score,
    score_pair_diversity, score_group4_diversity, score_group4_go, group4_sig, pair_key,
    pairs_upper, cross_pairs, repeat_penalty, effective_mmr_for_matchmaking, is_unranked,
    getP, alookup, player_wait, listMaxZ, listMinZ, dbC3, pC31, pC32, pC33, pC34, pC35,
    noiseZ, W_WAIT, ALPHA_DIFF, BETA_WITHIN, PRIORITY_WAIT_BOOST,
    List.insertionSort, List.orderedInsert, List.enum, List.enumFrom, max_def, min_def,
    List.filterMap]

theorem hC3_split5 : best_split_for_four dbC3 [2, 3, 4, 5] 500 (noiseZ 4) =
    some ([2, 3], [4, 5], -875) := by
  norm_num [best_split_for_four, get_partner_pairs, separates_pair, skill_score,
    score_pair_diversity, score_group4_diversity, score_group4_go, group4_sig, pair_key,
    pairs_upper, cross_pairs, repeat_penalty, effective_mmr_for_matchmaking, is_unranked,
    getP, alookup, player_wait, listMaxZ, listMinZ, dbC3, pC31, pC32, pC33, pC34, pC35,
    noiseZ, W_WAIT, ALPHA_DIFF, BETA_WITHIN, PRIORITY_WAIT_BOOST,
    List.insertionSort, List.orderedInsert, List.enum, List.enumFrom, max_def, min_def,
    List.filterMap]

theorem chooseC3_eval : (choose_four_for_court dbC3 500 noiseZ).1 = some pickC3 := by
  unfold choose_four_for_court
  simp only [hC3_elig, hC3_units, hC3_pool,
    show cleanup_diversity dbC3 500 = dbC3 from rfl]
  rw [if_neg (by norm_num)]
  rw [if_neg (by norm_num)]
  rw [if_neg (by norm_num)]
  norm_num only [show List.take 14 [1, 2, 3, 4, 5] = [1, 2, 3, 4, 5] from rfl,
    show combinations 4 [1, 2, 3, 4, 5] =
      [[1, 2, 3, 4], [1, 2, 3, 5], [1, 2, 4, 5], [1, 3, 4, 5], [2, 3, 4, 5]] from rfl,
    List.enum, List.enumFrom, List.foldl_cons, List.foldl_nil]
  simp only [show paired_rule_ok dbC3 [1, 2, 3, 4] = true from by decide,
    show paired_rule_ok dbC3 [1, 2, 3, 5] = true from by decide,
    show paired_rule_ok dbC3 [1, 2, 4, 5] = true from by decide,
    show paired_rule_ok dbC3 [1, 3, 4, 5] = true from by decide,
    show paired_rule_ok dbC3 [2, 3, 4, 5] = true from by decide,
    not_true, if_false, hC3_split1, hC3_split2, hC3_split3, hC3_split4, hC3_split5]
  norm_num [getP, alookup, dbC3, pC31, pC32, pC33, pC34, pC35,
    effective_mmr_for_matchmaking, is_unranked, HARD_SKILL_THRESHOLD, pickC3]

/-- C3 is false as stated: in `dbC3` the oldest-priority unit is the solo
player `1` (a rating outlier), yet the selector forms `[2, 3, 4, 5]` — every
combination containing `1` is discarded by the hard skill cap, so the pick
skips the oldest unit entirely. -/
theorem C3_claim_false_oldest_skipped :
    (choose_four_for_court dbC3 500 noiseZ).1 = some pickC3 ∧
    pair_units dbC3 (eligible_players dbC3 500) 500 =
      [⟨[pC31], 100, 1⟩, ⟨[pC32], 110, 1⟩, ⟨[pC33], 120, 1⟩, ⟨[pC34], 130, 1⟩,
        ⟨[pC35], 140, 1⟩] ∧
    (∀ u ∈ pair_units dbC3 (eligible_players dbC3 500) 500, (100 : ℚ) ≤ u.ts) ∧
    pC31.id = 1 ∧ (1 : ℕ) ∉ pickC3.combo := by
  have hu : pair_units dbC3 (eligible_players dbC3 500) 500 =
      [⟨[pC31], 100, 1⟩, ⟨[pC32], 110, 1⟩, ⟨[pC33], 120, 1⟩, ⟨[pC34], 130, 1⟩,
        ⟨[pC35], 140, 1⟩] := by rw [hC3_elig]; exact hC3_units
  refine ⟨chooseC3_eval, hu, ?_, rfl, by decide⟩
  rw [hu]
  intro u hup
  fin_cases hup <;> norm_num

def pC61 : Player := { id := 1, mmr := 1000, status := Status.queue, queue_join_ts := 100, calib_played := 10 }

def pC62 : Player := { id := 2, mmr := 1000, status := Status.queue, queue_join_ts := 110, calib_played := 10 }

def pC63 : Player := { id := 3, mmr := 1000, status := Status.queue, queue_join_ts := 120, calib_played := 10 }

def pC64 : Player := { id := 4, mmr := 1000, status := Status.queue, queue_join_ts := 130, calib_played := 10 }

/-- Four queued players whose only possible 4-group was formed 50 seconds ago:
the `avoid_4` entry hard-bans it. -/
def dbC6 : Db :=
  { players := [(1, pC61), (2, pC62), (3, pC63), (4, pC64)], is_session_active := true,
    avoid_4 := [⟨[1, 2, 3, 4], 450⟩] }

/-- The state dbC6 with the avoid-4 ledger ignored. -/
def dbC6r : Db := { dbC6 with avoid_4 := [] }

/-- Modelled from the spec: the claimed second, relaxed pass — the same
selector run with the avoid-4 diversity bans dropped, still respecting
commitments and everything else. -/
def choose_four_relaxed (db : Db) (now : ℚ) (noise : ℕ → ℕ → ℚ) : Option Pick :=
  (choose_four_for_court { db with avoid_4 := [] } now noise).1

def pickC6 : Pick := ⟨[1, 2, 3, 4], [1, 2], [3, 4], -2695/3⟩

theorem hC6_clean : cleanup_diversity dbC6 500 = dbC6 := by
  norm_num [cleanup_diversity, dbC6, DIVERSITY_WINDOW_SEC, GROUP4_SOFT_SEC, List.filter]

theorem hC6_elig : eligible_players dbC6 500 = [pC61, pC62, pC63, pC64] := by
  norm_num [eligible_players, dbC6, List.insertionSort, List.orderedInsert,
    List.filter, pC61, pC62, pC63, pC64]

theorem hC6_units : pair_units dbC6 [pC61, pC62, pC63, pC64] 500 =
    [⟨[pC61], 100, 1⟩, ⟨[pC62], 110, 1⟩, ⟨[pC63], 120, 1⟩, ⟨[pC64], 130, 1⟩] := by
  norm_num [pair_units, pair_units_go, dbC6, List.insertionSort, List.orderedInsert,
    alookup, pC61, pC62, pC63, pC64, min_def]

theorem hC6_pool :
    build_candidate_pool [⟨[pC61], 100, 1⟩, ⟨[pC62], 110, 1⟩, ⟨[pC63], 120, 1⟩,
      ⟨[pC64], 130, 1⟩] 500 =
    ([⟨[pC61], 100, 1⟩, ⟨[pC62], 110, 1⟩, ⟨[pC63], 120, 1⟩, ⟨[pC64], 130, 1⟩],
      [1, 2, 3, 4]) := by
  unfold build_candidate_pool
  rw [if_neg (by simp)]
  norm_num [build_pool_go, unit_wait, player_wait, listMaxQ,
    WAIT_WINDOW_SEC, WAIT_EXPAND_STEPS, PRIORITY_WAIT_BOOST, List.filter,
    pC61, pC62, pC63, pC64, max_def, min_def]

theorem hC6_split : best_split_for_four dbC6 [1, 2, 3, 4] 500 (noiseZ 0) = none := by
  norm_num [best_split_for_four, score_group4_diversity, score_group4_go, group4_sig,
    GROUP4_HARD_BAN_SEC, List.insertionSort, List.orderedInsert, dbC6]

theorem chooseC6_eval : (choose_four_for_court dbC6 500 noiseZ).1 = none := by
  unfold choose_four_for_court
  simp only [hC6_elig, hC6_units, hC6_pool, hC6_clean]
  rw [if_neg (by norm_num)]
  rw [if_neg (by norm_num)]
  rw [if_neg (by norm_num)]
  norm_num only [show List.take 14 [1, 2, 3, 4] = [1, 2, 3, 4] from rfl,
    show combinations 4 [1, 2, 3, 4] = [[1, 2, 3, 4]] from rfl,
    List.enum, List.enumFrom, List.foldl_cons, List.foldl_nil]
  simp only [show paired_rule_ok dbC6 [1, 2, 3, 4] = true from by decide,
    not_true, if_false, hC6_split]

theorem hC6r_elig : eligible_players dbC6r 500 = [pC61, pC62, pC63, pC64] := by
  norm_num [eligible_players, dbC6r, dbC6, List.insertionSort, List.orderedInsert,
    List.filter, pC61, pC62, pC63, pC64]

theorem hC6r_units : pair_units dbC6r [pC61, pC62, pC63, pC64] 500 =
    [⟨[pC61], 100, 1⟩, ⟨[pC62], 110, 1⟩, ⟨[pC63], 120, 1⟩, ⟨[pC64], 130, 1⟩] := by
  norm_num [pair_units, pair_units_go, dbC6r, dbC6, List.insertionSort, List.orderedInsert,
    alookup, pC61, pC62, pC63, pC64, min_def]

theorem hC6r_split : best_split_for_four dbC6r [1, 2, 3, 4] 500 (noiseZ 0) =
    some ([1, 2], [3, 4], -2695/3) := by
  norm_num [best_split_for_four, get_partner_pairs, separates_pair, skill_score,
    score_pair_diversity, score_group4_diversity, score_group4_go, group4_sig, pair_key,
    pairs_upper, cross_pairs, repeat_penalty, effective_mmr_for_matchmaking, is_unranked,
    getP, alookup, player_wait, listMaxZ, listMinZ, dbC6r, dbC6, pC61, pC62, pC63, pC64,
    noiseZ, W_WAIT, ALPHA_DIFF, BETA_WITHIN, PRIORITY_WAIT_BOOST,
    List.insertionSort, List.orderedInsert, List.enum, List.enumFrom, max_def, min_def,
    List.filterMap]

theorem chooseC6r_eval : (choose_four_for_court dbC6r 500 noiseZ).1 = some pickC6 := by
  unfold choose_four_for_court
  simp only [hC6r_elig, hC6r_units, hC6_pool,
    show cleanup_diversity dbC6r 500 = dbC6r from rfl]
  rw [if_neg (by norm_num)]
  rw [if_neg (by norm_num)]
  rw [if_neg (by norm_num)]
  norm_num only [show List.take 14 [1, 2, 3, 4] = [1, 2, 3, 4] from rfl,
    show combinations 4 [1, 2, 3, 4] = [[1, 2, 3, 4]] from rfl,
    List.enum, List.enumFrom, List.foldl_cons, List.foldl_nil]
  simp only [show paired_rule_ok dbC6r [1, 2, 3, 4] = true from by decide,
    not_true, if_false, hC6r_split]
  norm_num [pickC6]

/-- C6 is false as stated: in `dbC6` the only candidate 4-group is hard-banned
by the avoid-4 ledger, the strict pass therefore finds nothing — and the
selector simply returns no match; the spec's claimed relaxed second pass
(modelled by `choose_four_relaxed`) would have returned a match. -/
theorem C6_claim_false_no_relaxed_pass :
    (choose_four_for_court dbC6 500 noiseZ).1 = none ∧
    choose_four_relaxed dbC6 500 noiseZ = some pickC6 :=
  ⟨chooseC6_eval, chooseC6r_eval⟩
